import Mathlib

/-!
Verification development for the semantic-cache-backed knowledge-graph
lookup layer of the sye-agent repository: the Neo4j graph-store adapter
(src/neo4j_utils.py), the RedisVL-backed semantic cache
(src/agents/mami/semantic_cache.py), the tool orchestration layer
(src/neo4j_tool.py) and the cache warmup job
(src/agents/mami/cache_warmup.py), embedded shallowly in Lean.

Modelling conventions:
* Python/JSON values are the `PyVal` inductive; float literals are carried
  opaquely (never computed on).
* Machine randomness (uuid4) is modelled as a counter in the store state,
  giving the freshness guarantee the library provides.
* Vector distances and thresholds are rationals; the embedding provider is
  an abstract deterministic map bundled with the metric facts used
  (distance of a vector to itself is zero, distances are nonnegative).
* External store round trips are synchronous state transformations;
  Python exceptions are `Except` values, caught where the source catches
  them.
-/

namespace SyeAgent

/-- A parsed Python/JSON value, as produced by `json.loads` and consumed by
the tool layer. Float literals are kept as opaque text (the code never
computes on property values; they are pass-through data). -/
inductive PyVal where
  | pynull
  | pybool (b : Bool)
  | int (n : Int)
  | float (lit : String)
  | str (s : String)
  | list (xs : List PyVal)
  | dict (fields : List (String × PyVal))

mutual

/-- Python `==` on parsed values (structural equality). -/
def pyBeq : PyVal → PyVal → Bool
  | PyVal.pynull, PyVal.pynull => true
  | PyVal.pybool a, PyVal.pybool b => a == b
  | PyVal.int a, PyVal.int b => a == b
  | PyVal.float a, PyVal.float b => a == b
  | PyVal.str a, PyVal.str b => a == b
  | PyVal.list xs, PyVal.list ys => pyBeqList xs ys
  | PyVal.dict xs, PyVal.dict ys => pyBeqFields xs ys
  | _, _ => false

/-- Elementwise `pyBeq` on lists. -/
def pyBeqList : List PyVal → List PyVal → Bool
  | [], [] => true
  | x :: xs, y :: ys => pyBeq x y && pyBeqList xs ys
  | _, _ => false

/-- Elementwise `pyBeq` on dict field lists. -/
def pyBeqFields : List (String × PyVal) → List (String × PyVal) → Bool
  | [], [] => true
  | (k1, v1) :: xs, (k2, v2) :: ys => k1 == k2 && pyBeq v1 v2 && pyBeqFields xs ys
  | _, _ => false

end

instance : BEq PyVal := ⟨pyBeq⟩

/-- Python truthiness (`if value:`) for the values above. A float literal is
modelled as truthy unless it is a zero literal (the code only ever tests
truthiness of strings and lists). -/
def pyTruthy : PyVal → Bool
  | PyVal.pynull => false
  | PyVal.pybool b => b
  | PyVal.int n => n != 0
  | PyVal.float lit => lit != "0.0" && lit != "-0.0"
  | PyVal.str s => s != ""
  | PyVal.list xs => !xs.isEmpty
  | PyVal.dict fs => !fs.isEmpty

/-- Python `str()` as used in f-string interpolation. Containers are given a
simplified rendering; the code only ever interpolates strings (names,
labels) into keys and queries. -/
def pyToText : PyVal → String
  | PyVal.pynull => "None"
  | PyVal.pybool b => if b then "True" else "False"
  | PyVal.int n => toString n
  | PyVal.float lit => lit
  | PyVal.str s => s
  | PyVal.list _ => "[...]"
  | PyVal.dict _ => "{...}"

/-- The Python exceptions the modelled code can raise. Messages are
abbreviated; only the unknown-operation message is ever inspected by a
property. -/
inductive PyErr where
  | keyError (k : PyVal)
  | typeError
  | attributeError
  | indexError
  | jsonDecodeError
  | cacheUnavailable
  | neo4jTypeError

/-- `str(e)` for the exceptions above (abbreviated messages). -/
def errMsg : PyErr → String
  | PyErr.keyError k => pyToText k
  | PyErr.typeError => "TypeError"
  | PyErr.attributeError => "AttributeError"
  | PyErr.indexError => "list index out of range"
  | PyErr.jsonDecodeError => "Expecting value"
  | PyErr.cacheUnavailable => "Error connecting to Redis"
  | PyErr.neo4jTypeError => "Neo4j type error"

/-- Python `d.get(k, default)`: `AttributeError` when `d` is not a dict. -/
def pyGetD (d : PyVal) (k : String) (dflt : PyVal) : Except PyErr PyVal :=
  match d with
  | PyVal.dict fs => Except.ok ((fs.lookup k).getD dflt)
  | _ => Except.error PyErr.attributeError

/-- Python `d.get(k)` (default `None`). -/
def pyGet (d : PyVal) (k : String) : Except PyErr PyVal :=
  pyGetD d k PyVal.pynull

/-- Python `d[k]`: `KeyError` when missing, `TypeError` when `d` is not a
dict. -/
def pyIndex (d : PyVal) (k : String) : Except PyErr PyVal :=
  match d with
  | PyVal.dict fs =>
    match fs.lookup k with
    | some v => Except.ok v
    | none => Except.error (PyErr.keyError (PyVal.str k))
  | _ => Except.error PyErr.typeError

/-- Node summary row as built by the tool's `query_existing` and by the
warmup job: `node_id`, `name`, `created_at`, `times_seen`. The query always
returns the `times_seen` column, so Python's `r.get("times_seen", 1)` yields
the property value (possibly `None`), never the default. -/
structure NodeSummary where
  node_id : Nat
  name : String
  created_at : Option Int
  times_seen : Option Int
deriving Repr, DecidableEq

/-- Render an optional integer column value back to a Python value. -/
def optIntToPy : Option Int → PyVal
  | some n => PyVal.int n
  | none => PyVal.pynull

/-- Serialize a node summary to the dict shape the tool emits and caches. -/
def summaryToPy (s : NodeSummary) : PyVal :=
  PyVal.dict [("node_id", PyVal.int (Int.ofNat s.node_id)),
    ("name", PyVal.str s.name),
    ("created_at", optIntToPy s.created_at),
    ("times_seen", optIntToPy s.times_seen)]

/-- Serialize a list of node summaries. -/
def nodesToPy (ns : List NodeSummary) : PyVal :=
  PyVal.list (ns.map summaryToPy)

/-- A stored graph node. `create_node` stamps `created_at`, `source` and
`run_id` after merging the caller properties, so they live as separate
fields that shadow any caller property of the same name. `run_id` is the
fresh value drawn from the uuid supply (modelled as a counter). -/
structure GNode where
  id : Nat
  label : String
  props : List (String × PyVal)
  created_at : Int
  source : String
  run_id : Nat

/-- A stored graph relationship. -/
structure GRel where
  id : Nat
  relType : String
  startId : Nat
  endId : Nat
  props : List (String × PyVal)
  created_at : Int
  run_id : Nat

/-- One write transaction sent to the store, in submission order; used to
state the nodes-before-relationships ordering guarantee. -/
inductive GEvent where
  | createNode (id : Nat)
  | createRel (id : Nat) (startId : Nat) (endId : Nat)
deriving Repr, DecidableEq

/-- The Neo4j store state. `nextId`/`nextRelId` model the store-assigned
internal identifiers, `clock` the `timestamp()` function, `uuidCounter` the
`uuid.uuid4()` supply (each draw is fresh), `reads` counts read round trips
(`execute_query` calls), and `events` records write transactions in
submission order. -/
structure GraphStore where
  nextId : Nat
  nextRelId : Nat
  clock : Int
  uuidCounter : Nat
  nodes : List GNode
  rels : List GRel
  reads : Nat
  events : List GEvent

/-- The empty store. -/
def GraphStore.empty : GraphStore :=
  { nextId := 0, nextRelId := 0, clock := 0, uuidCounter := 0,
    nodes := [], rels := [], reads := 0, events := [] }

/-- `n.name` as read by Cypher: the caller-supplied `name` property; only a
string value can compare equal to a string query parameter. -/
def nodeName (n : GNode) : Option String :=
  match n.props.lookup "name" with
  | some (PyVal.str s) => some s
  | _ => none

/-- `n.times_seen` as an integer column value (null when absent or not an
integer property). -/
def nodeTimesSeen (n : GNode) : Option Int :=
  match n.props.lookup "times_seen" with
  | some (PyVal.int v) => some v
  | _ => none

/-- `create_node` (src/neo4j_utils.py): `CREATE (n:label) SET n += $props,
n.created_at = timestamp(), n.source = 'agent', n.run_id = $run_id RETURN
id(n)`. One write transaction; returns the store-assigned id. -/
def create_node (st : GraphStore) (label : String) (properties : List (String × PyVal))
    (run_id : Nat) : GraphStore × Nat :=
  let n : GNode :=
    { id := st.nextId
      label := label
      props := properties
      created_at := st.clock
      source := "agent"
      run_id := run_id }
  ({ st with
      nextId := st.nextId + 1
      clock := st.clock + 1
      nodes := st.nodes ++ [n]
      events := st.events ++ [GEvent.createNode st.nextId] }, st.nextId)

/-- `create_relationship` (src/neo4j_utils.py): `MATCH (a),(b) WHERE id(a) =
$start AND id(b) = $end CREATE (a)-[r:type]->(b) SET ... RETURN id(r)`. When
either endpoint id matches no node the MATCH yields no row and `result[0]`
raises `IndexError`; no relationship is created in that case. -/
def create_relationship (st : GraphStore) (rel_type : String) (start_node_id : Nat)
    (end_node_id : Nat) (properties : List (String × PyVal)) (run_id : Nat) :
    GraphStore × Except PyErr Nat :=
  if (st.nodes.any fun a => a.id == start_node_id) &&
      (st.nodes.any fun b => b.id == end_node_id) then
    let r : GRel :=
      { id := st.nextRelId
        relType := rel_type
        startId := start_node_id
        endId := end_node_id
        props := properties
        created_at := st.clock
        run_id := run_id }
    ({ st with
        nextRelId := st.nextRelId + 1
        clock := st.clock + 1
        rels := st.rels ++ [r]
        events := st.events ++ [GEvent.createRel st.nextRelId start_node_id end_node_id] },
      Except.ok st.nextRelId)
  else
    (st, Except.error PyErr.indexError)

/-- Python dict insertion `m[k] = v` for the `id_mapping` table (logical
id → store id): overwrites an existing binding for the same key. -/
def mapInsert (m : List (PyVal × Nat)) (k : PyVal) (v : Nat) : List (PyVal × Nat) :=
  (m.filter fun p => !(pyBeq p.1 k)) ++ [(k, v)]

/-- Python dict lookup `m[k]` for the `id_mapping` table (`none` models the
`KeyError` case). -/
def mapFind (m : List (PyVal × Nat)) (k : PyVal) : Option Nat :=
  match m with
  | [] => none
  | (k2, v) :: rest => if pyBeq k2 k then some v else mapFind rest k

/-- `SET n += $properties` requires a map parameter; anything else is a
server-side type error. -/
def asPropsDict : PyVal → Except PyErr (List (String × PyVal))
  | PyVal.dict fs => Except.ok fs
  | _ => Except.error PyErr.neo4jTypeError

/-- `for x in xs` over a payload list. Iterating a non-list payload value
is modelled as a `TypeError` (Python raises inside the loop body for the
dict/number cases the tool can receive). -/
def asItemList : PyVal → Except PyErr (List PyVal)
  | PyVal.list xs => Except.ok xs
  | _ => Except.error PyErr.typeError

/-- The node-creation loop of `write_knowledge_graph`: for each entry read
`node["id"]`, `node["label"]`, `node.get("properties", {})`, create the
node, and record the logical-to-internal id mapping. An exception leaves
the nodes already created in the store (each creation is its own committed
transaction). -/
def createNodesLoop (st : GraphStore) (run_id : Nat) (items : List PyVal)
    (m : List (PyVal × Nat)) : GraphStore × Except PyErr (List (PyVal × Nat)) :=
  match items with
  | [] => (st, Except.ok m)
  | node :: rest =>
    match pyIndex node "id" with
    | Except.error e => (st, Except.error e)
    | Except.ok agent_id =>
      match pyIndex node "label" with
      | Except.error e => (st, Except.error e)
      | Except.ok labelV =>
        match pyGetD node "properties" (PyVal.dict []) with
        | Except.error e => (st, Except.error e)
        | Except.ok propsV =>
          match asPropsDict propsV with
          | Except.error e => (st, Except.error e)
          | Except.ok props =>
            let r := create_node st (pyToText labelV) props run_id
            createNodesLoop r.1 run_id rest (mapInsert m agent_id r.2)

/-- The relationship-creation loop of `write_knowledge_graph`: for each
entry read `rel["type"]`, `rel["start_node_id"]`, `rel["end_node_id"]`,
`rel.get("properties", {})`, resolve both logical ids through `id_mapping`
(`KeyError` when absent), and create the relationship. -/
def createRelsLoop (st : GraphStore) (run_id : Nat) (items : List PyVal)
    (m : List (PyVal × Nat)) : GraphStore × Except PyErr Unit :=
  match items with
  | [] => (st, Except.ok ())
  | rel :: rest =>
    match pyIndex rel "type" with
    | Except.error e => (st, Except.error e)
    | Except.ok typeV =>
      match pyIndex rel "start_node_id" with
      | Except.error e => (st, Except.error e)
      | Except.ok startV =>
        match pyIndex rel "end_node_id" with
        | Except.error e => (st, Except.error e)
        | Except.ok endV =>
          match pyGetD rel "properties" (PyVal.dict []) with
          | Except.error e => (st, Except.error e)
          | Except.ok propsV =>
            match mapFind m startV with
            | none => (st, Except.error (PyErr.keyError startV))
            | some start_neo4j_id =>
              match mapFind m endV with
              | none => (st, Except.error (PyErr.keyError endV))
              | some end_neo4j_id =>
                match asPropsDict propsV with
                | Except.error e => (st, Except.error e)
                | Except.ok props =>
                  match create_relationship st (pyToText typeV) start_neo4j_id
                      end_neo4j_id props run_id with
                  | (st2, Except.ok _) => createRelsLoop st2 run_id rest m
                  | (st2, Except.error e) => (st2, Except.error e)

/-- `write_knowledge_graph` (src/neo4j_utils.py): draw a fresh `run_id`,
create all nodes (building `id_mapping`), then create all relationships,
and return `(len(nodes), len(relationships), run_id)`. Exceptions leave the
creations already performed in place. -/
def write_knowledge_graph (st : GraphStore) (graph_json : PyVal) :
    GraphStore × Except PyErr (Nat × Nat × Nat) :=
  let run_id := st.uuidCounter
  let st1 := { st with uuidCounter := st.uuidCounter + 1 }
  match pyGetD graph_json "nodes" (PyVal.list []) with
  | Except.error e => (st1, Except.error e)
  | Except.ok nodesV =>
    match asItemList nodesV with
    | Except.error e => (st1, Except.error e)
    | Except.ok nodeItems =>
      match createNodesLoop st1 run_id nodeItems [] with
      | (st2, Except.error e) => (st2, Except.error e)
      | (st2, Except.ok m) =>
        match pyGetD graph_json "relationships" (PyVal.list []) with
        | Except.error e => (st2, Except.error e)
        | Except.ok relsV =>
          match asItemList relsV with
          | Except.error e => (st2, Except.error e)
          | Except.ok relItems =>
            match createRelsLoop st2 run_id relItems m with
            | (st3, Except.error e) => (st3, Except.error e)
            | (st3, Except.ok _) =>
              (st3, Except.ok (nodeItems.length, relItems.length, run_id))

/-- The embedding provider (src/embedding_utils.py, an external
sentence-transformers model) together with the vector metric of the
backing index: an abstract deterministic map from text to vectors and a
distance function, bundled with the two metric facts the code relies on —
a vector is at distance zero from itself, and distances are nonnegative
(both hold for the normalized cosine distance the index uses). Distances
are modelled as rationals. -/
structure EmbeddingModel (V : Type) where
  embed : String → V
  dist : V → V → ℚ
  dist_self : ∀ v, dist v v = 0
  dist_nonneg : ∀ a b, 0 ≤ dist a b

/-- One entry of the RedisVL vector index: the exact prompt text, its
embedding, and the stored response. Responses are written exclusively as
`json.dumps` of node-summary lists — a non-empty, parseable string on which
`json.loads` inverts `json.dumps` — so the response channel is modelled by
the payload value itself. -/
structure CacheEntry (V : Type) where
  prompt : String
  vector : V
  payload : List NodeSummary

/-- The RedisVL `SemanticCache` backing store: a list of entries, most
recently stored first. -/
structure RVLCache (V : Type) where
  entries : List (CacheEntry V)

/-- Nearest-neighbor scan of the index: the entry with minimal distance to
the query vector, earlier (more recently stored) entries winning ties. -/
def nearestEntry (M : EmbeddingModel V) (c : RVLCache V) (v : V) : Option (CacheEntry V) :=
  c.entries.foldl
    (fun best e =>
      match best with
      | none => some e
      | some b => if M.dist v e.vector < M.dist v b.vector then some e else best)
    none

/-- Modelled from the spec: RedisVL `SemanticCache.check` (external
library, not part of this repository): embed the prompt, find the nearest
stored entry, and return it only when its vector distance is at most the
configured distance threshold; otherwise report a miss. -/
def RVLCache.checkPrompt (M : EmbeddingModel V) (c : RVLCache V) (threshold : ℚ)
    (prompt : String) : Option (CacheEntry V) :=
  match nearestEntry M c (M.embed prompt) with
  | none => none
  | some e =>
    if M.dist (M.embed prompt) e.vector ≤ threshold then some e else none

/-- Modelled from the spec: RedisVL `SemanticCache.store` (external
library): index the response under the freshly embedded prompt,
overwriting any entry with the same exact prompt text (entries are keyed
by a hash of the prompt). -/
def RVLCache.storePrompt (M : EmbeddingModel V) (c : RVLCache V) (prompt : String)
    (payload : List NodeSummary) : RVLCache V :=
  { entries :=
      { prompt := prompt, vector := M.embed prompt, payload := payload } ::
        c.entries.filter fun e => e.prompt ≠ prompt }

/-- The composite cache key of `Neo4jSemanticCache`
(src/agents/mami/semantic_cache.py): `f"{label}:{text}"` when a label is
given, else the bare text. -/
def cacheKey (node_label : Option String) (query_text : String) : String :=
  match node_label with
  | some l => l ++ ":" ++ query_text
  | none => query_text

/-- `Neo4jSemanticCache`: the distance threshold fixed at construction and
the RedisVL index. -/
structure Neo4jSemanticCache (V : Type) where
  distance_threshold : ℚ
  cache : RVLCache V

/-- `Neo4jSemanticCache.check`: build the composite key, query the index,
and on a hit parse the stored response. Responses written by `store` are
`json.dumps` output — always a non-empty string that parses back to the
stored list — so the truthiness test and the `JSONDecodeError` handler of
the source never fire on reachable entries; a hit returns the stored
payload (which may be the empty list), and anything else is a miss
(`None`). -/
def Neo4jSemanticCache.check (M : EmbeddingModel V) (sc : Neo4jSemanticCache V)
    (query_text : String) (node_label : Option String) : Option (List NodeSummary) :=
  let cache_key := cacheKey node_label query_text
  match sc.cache.checkPrompt M sc.distance_threshold cache_key with
  | none => none
  | some e => some e.payload

/-- `Neo4jSemanticCache.store`: build the composite key, serialize the
node list, and store it in the index. -/
def Neo4jSemanticCache.store (M : EmbeddingModel V) (sc : Neo4jSemanticCache V)
    (query_text : String) (nodes : List NodeSummary) (node_label : Option String) :
    Neo4jSemanticCache V :=
  let cache_key := cacheKey node_label query_text
  { sc with cache := sc.cache.storePrompt M cache_key nodes }

/-- The default distance threshold 0.2, as the reduced rational 1/5 (kept
in literal form; `defaultDistanceThreshold_eq` relates it to `1/5`). -/
def defaultDistanceThreshold : ℚ :=
  { num := 1, den := 5, den_nz := by decide, reduced := by decide }

/-- `get_semantic_cache`: the lazily created singleton,
`Neo4jSemanticCache(distance_threshold=0.2)` over an initially empty
index. -/
def get_semantic_cache (V : Type) : Neo4jSemanticCache V :=
  { distance_threshold := defaultDistanceThreshold, cache := { entries := [] } }

/-- The default threshold is one fifth (0.2). -/
theorem defaultDistanceThreshold_eq : defaultDistanceThreshold = 1/5 := by
  unfold defaultDistanceThreshold
  rw [Rat.mk'_eq_divInt, Rat.divInt_eq_div]
  norm_num

/-- The semantic cache as seen by the tool: either the backing Redis
service is reachable (holding the singleton cache state) or it is
unavailable, in which case `check`/`store` raise a connection error. -/
inductive CacheHandle (V : Type) where
  | available (sc : Neo4jSemanticCache V)
  | unavailable

/-- The world the tool operates on: the Neo4j store and the semantic cache
singleton. -/
structure World (V : Type) where
  graph : GraphStore
  cache : CacheHandle V

/-- Project a graph node to the row shape of the tool's exact-match query
(`RETURN id(n) as node_id, n.name as name, n.created_at as created_at,
n.times_seen as times_seen`). -/
def toSummary (n : GNode) : NodeSummary :=
  { node_id := n.id
    name := (nodeName n).getD ""
    created_at := some n.created_at
    times_seen := nodeTimesSeen n }

/-- The tool's exact-match read (`MATCH (n:label) WHERE n.name = $name ...
LIMIT 1`): one read round trip returning at most one row. -/
def execQueryExact (g : GraphStore) (label : String) (name : String) :
    GraphStore × List NodeSummary :=
  let hits := g.nodes.filter fun n => n.label == label && nodeName n == some name
  ({ g with reads := g.reads + 1 }, (hits.take 1).map toSummary)

/-- The result dict `{"source": src, "nodes": [...], "count": len(nodes)}`
returned by `_query_existing` (the code's `if nodes:` split produces this
same shape in both branches). -/
def sourceResult (src : String) (ns : List NodeSummary) : PyVal :=
  PyVal.dict [("source", PyVal.str src), ("nodes", nodesToPy ns),
    ("count", PyVal.int (Int.ofNat ns.length))]

/-- The miss path of `_query_existing`: query Neo4j exactly, store the
result (even an empty one) in the semantic cache, and return it tagged
`source=neo4j`. `sc` is the cache state the available handle held. -/
def queryMissPath (M : EmbeddingModel V) (w : World V) (sc : Neo4jSemanticCache V)
    (name : String) (label : String) : World V × Except PyErr PyVal :=
  let r := execQueryExact w.graph label name
  let nodes := r.2
  let sc2 := sc.store M name nodes (some label)
  ({ graph := r.1, cache := CacheHandle.available sc2 },
    Except.ok (sourceResult "neo4j" nodes))

/-- `_query_existing` core flow (src/neo4j_tool.py): check the semantic
cache; `if cached_nodes:` — a Python truthiness test, so both a miss
(`None`) and a cached empty list fall through to the Neo4j exact-match
query, whose result is then stored back in the cache; only a non-empty
cached list is returned tagged `source=cache`. An unavailable cache raises
at the `cache.check` call (there is no handler at this level). -/
def queryExisting (M : EmbeddingModel V) (w : World V) (name : String) (label : String) :
    World V × Except PyErr PyVal :=
  match w.cache with
  | CacheHandle.unavailable => (w, Except.error PyErr.cacheUnavailable)
  | CacheHandle.available sc =>
    match sc.check M name (some label) with
    | some (n :: rest) =>
      (w, Except.ok (sourceResult "cache" (n :: rest)))
    | some [] => queryMissPath M w sc name label
    | none => queryMissPath M w sc name label

/-- The message of the tool's missing-field guard. -/
def missingFieldMsg : String := "Missing \x27name\x27 or \x27label\x27 in query"

/-- `_query_existing` entry: read `name` and `label` from the query dict
(`.get`, so `None` when absent; `AttributeError` when the data is not a
dict), return an error dict when either is falsy, else run the core
flow. -/
def queryExistingOp (M : EmbeddingModel V) (w : World V) (d : PyVal) :
    World V × Except PyErr PyVal :=
  match pyGet d "name" with
  | Except.error e => (w, Except.error e)
  | Except.ok nameV =>
    match pyGet d "label" with
    | Except.error e => (w, Except.error e)
    | Except.ok labelV =>
      if !(pyTruthy nameV) || !(pyTruthy labelV) then
        (w, Except.ok (PyVal.dict [("error", PyVal.str missingFieldMsg)]))
      else
        queryExisting M w (pyToText nameV) (pyToText labelV)

/-- `_write_graph`: run `write_knowledge_graph` and wrap the counts and
`run_id` in a success dict. The run id string is rendered from the uuid
supply value. -/
def runIdStr (n : Nat) : String := "uuid-" ++ toString n

/-- `_write_graph` (src/neo4j_tool.py). -/
def writeGraphOp (w : World V) (d : PyVal) : World V × Except PyErr PyVal :=
  let r := write_knowledge_graph w.graph d
  let w2 := { w with graph := r.1 }
  match r.2 with
  | Except.error e => (w2, Except.error e)
  | Except.ok (num_nodes, num_rels, run_id) =>
    (w2, Except.ok (PyVal.dict [("success", PyVal.pybool true),
      ("nodes_created", PyVal.int (Int.ofNat num_nodes)),
      ("relationships_created", PyVal.int (Int.ofNat num_rels)),
      ("run_id", PyVal.str (runIdStr run_id))]))

/-- Count the nodes of each label, labels in first-creation order
(`labels(n)[0] as label, count(n) as count`). -/
def labelCounts (ns : List GNode) : List (String × Nat) :=
  ns.foldl
    (fun acc n =>
      if acc.any fun p => p.1 == n.label then
        acc.map fun p => if p.1 == n.label then (p.1, p.2 + 1) else p
      else acc ++ [(n.label, 1)])
    []

/-- Stable insertion by count descending (`ORDER BY count DESC`). -/
def insertByCountDesc (x : String × Nat) : List (String × Nat) → List (String × Nat)
  | [] => [x]
  | y :: ys => if x.2 ≥ y.2 then x :: y :: ys else y :: insertByCountDesc x ys

/-- `_get_stats` (src/neo4j_tool.py): per-label counts ordered by count
descending, total node count as their sum, and the relationship count; two
read round trips. -/
def getStatsOp (w : World V) : World V × Except PyErr PyVal :=
  let rows := (labelCounts w.graph.nodes).foldr insertByCountDesc []
  let total_nodes := rows.foldl (fun acc r => acc + r.2) 0
  let total_rels := w.graph.rels.length
  let g2 := { w.graph with reads := w.graph.reads + 2 }
  ({ w with graph := g2 },
    Except.ok (PyVal.dict [("total_nodes", PyVal.int (Int.ofNat total_nodes)),
      ("total_relationships", PyVal.int (Int.ofNat total_rels)),
      ("nodes_by_label", PyVal.list (rows.map fun r =>
        PyVal.dict [("label", PyVal.str r.1), ("count", PyVal.int (Int.ofNat r.2))]))]))

/-- The string-dispatch of `forward` over the parsed data: the three known
operations, else a normally returned unknown-operation error dict. -/
def dispatch (M : EmbeddingModel V) (w : World V) (operation : String) (d : PyVal) :
    World V × Except PyErr PyVal :=
  if operation = "write_graph" then writeGraphOp w d
  else if operation = "query_existing" then queryExistingOp M w d
  else if operation = "get_stats" then getStatsOp w
  else (w, Except.ok (PyVal.dict [("error", PyVal.str ("Unknown operation: " ++ operation))]))

/-- `Neo4jKnowledgeGraphTool.forward` (src/neo4j_tool.py): parse the data
string (`json.loads`, modelled by the supplied parser; `none` is a
`JSONDecodeError`), dispatch on the operation name, and convert any raised
exception into a `{"error": str(e)}` dict — the function always returns a
JSON object. State mutations committed before an exception persist. -/
def forward (M : EmbeddingModel V) (jsonLoads : String → Option PyVal) (w : World V)
    (operation : String) (data : String) : World V × PyVal :=
  match jsonLoads data with
  | none => (w, PyVal.dict [("error", PyVal.str (errMsg PyErr.jsonDecodeError))])
  | some d =>
    let r := dispatch M w operation d
    match r.2 with
    | Except.ok v => (r.1, v)
    | Except.error e => (r.1, PyVal.dict [("error", PyVal.str (errMsg e))])

/-- One row of the warmup query (`MATCH (n) WHERE n.name IS NOT NULL
RETURN labels(n)[0] as label, id(n) as node_id, n.name as name,
n.created_at as created_at, n.times_seen as times_seen`). -/
structure WRow where
  wlabel : String
  node_id : Nat
  wname : String
  created_at : Int
  times_seen : Option Int
deriving Repr, DecidableEq

/-- `times_seen` comparison for `ORDER BY n.times_seen DESC`: Neo4j treats
null as larger than every value, so null rows sort first in descending
order. -/
def tsGE : Option Int → Option Int → Bool
  | none, _ => true
  | some _, none => false
  | some a, some b => a ≥ b

/-- Row order of the warmup query: `ORDER BY label, n.times_seen DESC`. -/
def warmupLE (a b : WRow) : Bool :=
  if a.wlabel = b.wlabel then tsGE a.times_seen b.times_seen
  else decide (a.wlabel < b.wlabel)

/-- Stable sorted insertion for the warmup row order. -/
def insertWRow (x : WRow) : List WRow → List WRow
  | [] => [x]
  | y :: ys => if warmupLE x y then x :: y :: ys else y :: insertWRow x ys

/-- The rows of the warmup query: every node with a (string) `name`
property, sorted by label and descending `times_seen` (stable in creation
order). -/
def warmupRows (g : GraphStore) : List WRow :=
  (g.nodes.filterMap fun n =>
    match nodeName n with
    | some nm =>
      some { wlabel := n.label
             node_id := n.id
             wname := nm
             created_at := n.created_at
             times_seen := nodeTimesSeen n }
    | none => none).foldr insertWRow []

/-- Append a row to its label group (Python dict of lists, insertion
ordered). -/
def groupAdd (acc : List (String × List WRow)) (r : WRow) : List (String × List WRow) :=
  match acc with
  | [] => [(r.wlabel, [r])]
  | (l, rs) :: rest =>
    if l == r.wlabel then (l, rs ++ [r]) :: rest else (l, rs) :: groupAdd rest r

/-- Group warmup rows by label, preserving query order within a group. -/
def groupByLabel (rows : List WRow) : List (String × List WRow) :=
  rows.foldl groupAdd []

/-- The node summary the warmup job caches for one row. -/
def rowSummary (r : WRow) : NodeSummary :=
  { node_id := r.node_id
    name := r.wname
    created_at := some r.created_at
    times_seen := r.times_seen }

/-- `warmup_cache` (src/agents/mami/cache_warmup.py): run the warmup query
(one read round trip), group the rows by label, and for every row
individually store a singleton summary list under
`(name, label)` — later rows for the same key overwrite earlier ones. -/
def warmup_cache (M : EmbeddingModel V) (g : GraphStore) (sc : Neo4jSemanticCache V) :
    GraphStore × Neo4jSemanticCache V :=
  let g2 := { g with reads := g.reads + 1 }
  let groups := groupByLabel (warmupRows g)
  let sc2 := groups.foldl
    (fun acc lg =>
      lg.2.foldl (fun a r => a.store M r.wname [rowSummary r] (some lg.1)) acc)
    sc
  (g2, sc2)

/-- A well-formed logical node of a `write_graph` payload, as documented by
the tool: a caller-assigned logical id, a label, and properties. -/
structure NodeSpecL where
  nid : String
  nlabel : String
  nprops : List (String × PyVal)

/-- A well-formed logical relationship of a `write_graph` payload. -/
structure RelSpecL where
  rtype : String
  rstart : String
  rend : String
  rprops : List (String × PyVal)

/-- The JSON dict of a logical node. -/
def nodeSpecToPy (n : NodeSpecL) : PyVal :=
  PyVal.dict [("id", PyVal.str n.nid), ("label", PyVal.str n.nlabel),
    ("properties", PyVal.dict n.nprops)]

/-- The JSON dict of a logical relationship. -/
def relSpecToPy (r : RelSpecL) : PyVal :=
  PyVal.dict [("type", PyVal.str r.rtype), ("start_node_id", PyVal.str r.rstart),
    ("end_node_id", PyVal.str r.rend), ("properties", PyVal.dict r.rprops)]

/-- A `write_graph` payload submitting the nodes list before the
relationships list. -/
def mkPayload (ns : List NodeSpecL) (rs : List RelSpecL) : PyVal :=
  PyVal.dict [("nodes", PyVal.list (ns.map nodeSpecToPy)),
    ("relationships", PyVal.list (rs.map relSpecToPy))]

/-- The same payload with the two top-level lists in the opposite
submission order. -/
def mkPayloadRev (ns : List NodeSpecL) (rs : List RelSpecL) : PyVal :=
  PyVal.dict [("relationships", PyVal.list (rs.map relSpecToPy)),
    ("nodes", PyVal.list (ns.map nodeSpecToPy))]

/-- A concrete embedding model for witnesses: texts embed to themselves and
the metric is discrete, so distinct texts are at distance 1 (outside the
default threshold) and identical texts at distance 0. -/
def discreteModel : EmbeddingModel String :=
  { embed := id
    dist := fun a b => if a = b then 0 else 1
    dist_self := fun v => by simp
    dist_nonneg := fun a b => by dsimp only; split <;> norm_num }

/-- A concrete embedding model for counterexamples: every text embeds to
the same vector, so every pair of texts is at distance 0 (an extreme case
of near-duplicate texts mapping within the threshold). -/
def constModel : EmbeddingModel Unit :=
  { embed := fun _ => ()
    dist := fun _ _ => 0
    dist_self := fun _ => rfl
    dist_nonneg := fun _ _ => le_refl 0 }

/-! ## Lemmas about the semantic cache -/

/-- The nearest-neighbor scan keeps the head entry when no later entry is
strictly closer. -/
theorem nearestEntry_cons_min (M : EmbeddingModel V) (e : CacheEntry V)
    (l : List (CacheEntry V)) (v : V)
    (h : ∀ x ∈ l, ¬ (M.dist v x.vector < M.dist v e.vector)) :
    nearestEntry M { entries := e :: l } v = some e := by
  unfold nearestEntry
  simp only [List.foldl_cons]
  induction l with
  | nil => rfl
  | cons x xs ih =>
    simp only [List.foldl_cons]
    rw [if_neg (h x (by simp))]
    exact ih fun y hy => h y (by simp [hy])

/-- Storing under a key and checking the same exact key is a hit returning
the stored payload: the fresh entry sits at distance zero from the query
embedding, wins the nearest-neighbor scan, and passes any nonnegative
threshold. -/
theorem store_then_check (M : EmbeddingModel V) (sc : Neo4jSemanticCache V)
    (query_text : String) (nodes : List NodeSummary) (node_label : Option String)
    (h : 0 ≤ sc.distance_threshold) :
    (sc.store M query_text nodes node_label).check M query_text node_label = some nodes := by
  unfold Neo4jSemanticCache.store Neo4jSemanticCache.check RVLCache.checkPrompt
    RVLCache.storePrompt
  simp only
  rw [nearestEntry_cons_min M _ _ _
    (fun x _ => by
      rw [M.dist_self]
      exact (M.dist_nonneg _ _).not_lt)]
  simp [M.dist_self, h]

/-- Check against a cache holding exactly one stored entry: a hit with that
entry's payload precisely when the embedding distance between the two
composite keys is within the threshold. -/
theorem store_empty_check (M : EmbeddingModel V) (sc : Neo4jSemanticCache V)
    (t1 t2 : String) (X : List NodeSummary) (l1 l2 : Option String)
    (hE : sc.cache.entries = []) :
    (sc.store M t1 X l1).check M t2 l2 =
      if M.dist (M.embed (cacheKey l2 t2)) (M.embed (cacheKey l1 t1)) ≤ sc.distance_threshold
      then some X else none := by
  unfold Neo4jSemanticCache.store Neo4jSemanticCache.check RVLCache.checkPrompt
    RVLCache.storePrompt
  simp only [hE, List.filter_nil]
  unfold nearestEntry
  simp only [List.foldl_cons, List.foldl_nil]
  split_ifs with hd <;> rfl

/-- C6: for every (name, label) pair and node-summary list, `store(name,
nodes, label)` immediately followed by `check(name, label)` with the same
exact text returns a hit whose payload equals `nodes` (the JSON
serialization round-trip is the identity on these payloads). -/
theorem claim_store_check_roundtrip (M : EmbeddingModel V) (sc : Neo4jSemanticCache V)
    (name : String) (nodes : List NodeSummary) (label : String)
    (h : 0 ≤ sc.distance_threshold) :
    (sc.store M name nodes (some label)).check M name (some label) = some nodes :=
  store_then_check M sc name nodes (some label) h

/-- Witness for C6 at a concrete input: the default singleton cache has a
nonnegative threshold, and storing then checking "db timeout" under
Symptom returns the stored single-node payload. -/
theorem claim_store_check_roundtrip_witness :
    0 ≤ (get_semantic_cache String).distance_threshold ∧
      ((get_semantic_cache String).store discreteModel "db timeout"
          [{ node_id := 0, name := "db timeout", created_at := some 0, times_seen := none }]
          (some "Symptom")).check discreteModel "db timeout" (some "Symptom") =
        some [{ node_id := 0, name := "db timeout", created_at := some 0, times_seen := none }] :=
  ⟨by decide,
    claim_store_check_roundtrip discreteModel (get_semantic_cache String) "db timeout"
      [{ node_id := 0, name := "db timeout", created_at := some 0, times_seen := none }]
      "Symptom" (by decide)⟩

/-- C7 counterexample: with an embedding model under which the two
composite keys "Symptom:timeout" and "Error:timeout" map within the
distance threshold (here a constant embedding, the extreme of
near-duplicate keys), an entry stored under label Symptom IS returned by a
check under the distinct label Error — the concatenated-label key does not
make cross-label collisions impossible. -/
theorem claim_label_partition_counterexample :
    (((get_semantic_cache Unit).store constModel "timeout"
        [{ node_id := 7, name := "timeout", created_at := some 3, times_seen := some 5 }]
        (some "Symptom")).check constModel "timeout" (some "Error") =
      some [{ node_id := 7, name := "timeout", created_at := some 3, times_seen := some 5 }]) ∧
    ("Symptom" : String) ≠ "Error" := by
  exact ⟨by decide, by decide⟩

/-- C7 as amended: the concatenated-label composite key partitions the
cache only up to the embedding metric — `store(T, X, L1)` never causes
`check(T, L2)` to return X provided the embedding distance between the
composite keys "L2:T" and "L1:T" exceeds the distance threshold (here
stated from a cache with no prior entries); when that distance is within
the threshold the nearest-neighbor search can and does cross labels. -/
theorem claim_label_partition_amended (M : EmbeddingModel V) (sc : Neo4jSemanticCache V)
    (T : String) (X : List NodeSummary) (L1 L2 : String)
    (hE : sc.cache.entries = []) (_hL : L1 ≠ L2)
    (hfar : sc.distance_threshold <
      M.dist (M.embed (cacheKey (some L2) T)) (M.embed (cacheKey (some L1) T))) :
    (sc.store M T X (some L1)).check M T (some L2) = none := by
  rw [store_empty_check M sc T T X (some L1) (some L2) hE]
  exact if_neg (not_le_of_lt hfar)

/-- Witness for C7's amended theorem: under the discrete embedding model
the keys "Symptom:timeout" and "Error:timeout" are at distance 1, beyond
the default threshold 1/5, and the cross-label check misses. -/
theorem claim_label_partition_amended_witness :
    (get_semantic_cache String).cache.entries = [] ∧
    ("Symptom" : String) ≠ "Error" ∧
    (get_semantic_cache String).distance_threshold <
      discreteModel.dist (discreteModel.embed (cacheKey (some "Error") "timeout"))
        (discreteModel.embed (cacheKey (some "Symptom") "timeout")) ∧
    ((get_semantic_cache String).store discreteModel "timeout"
        [{ node_id := 7, name := "timeout", created_at := some 3, times_seen := some 5 }]
        (some "Symptom")).check discreteModel "timeout" (some "Error") = none :=
  ⟨rfl, by decide, by decide,
    claim_label_partition_amended discreteModel (get_semantic_cache String) "timeout"
      [{ node_id := 7, name := "timeout", created_at := some 3, times_seen := some 5 }]
      "Symptom" "Error" rfl (by decide) (by decide)⟩

/-- C8: against a single stored entry, a check returns the cached payload
exactly when the embedding distance between the queried composite key and
the stored composite key is at most the configured distance threshold — a
strictly greater distance never hits, a distance within it always does;
and the default configuration (`get_semantic_cache`) fixes that threshold
at 0.2. -/
theorem claim_distance_threshold_boundary (V : Type) (M : EmbeddingModel V)
    (sc : Neo4jSemanticCache V) (L T1 T2 : String) (X : List NodeSummary)
    (hE : sc.cache.entries = []) :
    ((sc.store M T1 X (some L)).check M T2 (some L) =
      if M.dist (M.embed (cacheKey (some L) T2)) (M.embed (cacheKey (some L) T1)) ≤
          sc.distance_threshold
      then some X else none) ∧
    (get_semantic_cache V).distance_threshold = 1/5 :=
  ⟨store_empty_check M sc T1 T2 X (some L) (some L) hE, defaultDistanceThreshold_eq⟩

/-- Witness for C8: from the empty default cache, storing "db timeout" and
checking the paraphrase "db timeouts" (distance 1 under the discrete
model, beyond the threshold) misses, while checking the identical text
(distance 0) hits. -/
theorem claim_distance_threshold_boundary_witness :
    (get_semantic_cache String).cache.entries = [] ∧
    ((get_semantic_cache String).store discreteModel "db timeout"
        [{ node_id := 1, name := "db timeout", created_at := some 0, times_seen := none }]
        (some "Symptom")).check discreteModel "db timeouts" (some "Symptom") =
      (if discreteModel.dist (discreteModel.embed (cacheKey (some "Symptom") "db timeouts"))
          (discreteModel.embed (cacheKey (some "Symptom") "db timeout")) ≤
          (get_semantic_cache String).distance_threshold
        then some [{ node_id := 1, name := "db timeout", created_at := some 0, times_seen := none }]
        else none) :=
  ⟨rfl,
    (claim_distance_threshold_boundary String discreteModel (get_semantic_cache String)
      "Symptom" "db timeout" "db timeouts"
      [{ node_id := 1, name := "db timeout", created_at := some 0, times_seen := none }]
      rfl).1⟩

/-! ## query_existing: cached-empty-result behavior (C1) and cache failure (C2) -/

/-- C1 as amended: after `query_existing(name, label)` misses the cache and
the graph store returns an empty result, the empty result IS stored in the
cache — but a second identical call does NOT short-circuit to it: the tool
tests the cached list for Python truthiness, so the cached empty list is
treated like a miss and the graph store is queried again (and the empty
result re-stored); the second call still returns the same (empty) result
set, tagged source=neo4j. Only a non-empty cached result short-circuits. -/
theorem claim_empty_result_cached_but_requeried (M : EmbeddingModel V) (w : World V)
    (sc : Neo4jSemanticCache V) (name label : String)
    (hc : w.cache = CacheHandle.available sc)
    (hthr : 0 ≤ sc.distance_threshold)
    (hmiss : sc.check M name (some label) = none)
    (hempty : (w.graph.nodes.filter fun n => n.label == label && nodeName n == some name) = []) :
    (queryExisting M w name label).2 = Except.ok (sourceResult "neo4j" []) ∧
    (queryExisting M w name label).1.cache =
      CacheHandle.available (sc.store M name [] (some label)) ∧
    (queryExisting M w name label).1.graph.reads = w.graph.reads + 1 ∧
    (queryExisting M (queryExisting M w name label).1 name label).2 =
      Except.ok (sourceResult "neo4j" []) ∧
    (queryExisting M (queryExisting M w name label).1 name label).1.graph.reads =
      w.graph.reads + 2 := by
  obtain ⟨g, ch⟩ := w
  simp only at hc hempty
  subst hc
  have h1 : queryExisting M { graph := g, cache := CacheHandle.available sc } name label =
      ({ graph := { g with reads := g.reads + 1 },
         cache := CacheHandle.available (sc.store M name [] (some label)) },
        Except.ok (sourceResult "neo4j" [])) := by
    unfold queryExisting
    simp only [hmiss]
    unfold queryMissPath execQueryExact
    simp only [hempty]
    rfl
  have hchk : (sc.store M name [] (some label)).check M name (some label) = some [] :=
    store_then_check M sc name [] (some label) hthr
  have h2 : queryExisting M
      (queryExisting M { graph := g, cache := CacheHandle.available sc } name label).1 name label =
      ({ graph := { g with reads := g.reads + 1 + 1 },
         cache := CacheHandle.available
           ((sc.store M name [] (some label)).store M name [] (some label)) },
        Except.ok (sourceResult "neo4j" [])) := by
    rw [h1]
    unfold queryExisting
    simp only [hchk]
    unfold queryMissPath execQueryExact
    simp only [hempty]
    rfl
  rw [h2, h1]
  exact ⟨rfl, rfl, rfl, rfl, rfl⟩

/-- The concrete world of the C1 scenario: empty graph, default empty
semantic cache. -/
def c1World : World String :=
  { graph := GraphStore.empty, cache := CacheHandle.available (get_semantic_cache String) }

/-- First `query_existing("db timeout", "Symptom")` call of the C1
scenario. -/
def c1First : World String × Except PyErr PyVal :=
  queryExisting discreteModel c1World "db timeout" "Symptom"

/-- Second, identical call of the C1 scenario. -/
def c1Second : World String × Except PyErr PyVal :=
  queryExisting discreteModel c1First.1 "db timeout" "Symptom"

/-- C1 counterexample: the first call stores the empty graph-confirmed
result in the cache, yet the second call with the same exact text does not
short-circuit to that cached result without re-querying the graph store —
it performs a second read round trip (read counter 2, not 1) and returns
its result tagged source=neo4j, not source=cache. -/
theorem claim_empty_result_shortcircuit_counterexample :
    c1First.1.cache =
      CacheHandle.available
        ((get_semantic_cache String).store discreteModel "db timeout" [] (some "Symptom")) ∧
    c1First.1.graph.reads = 1 ∧
    c1Second.1.graph.reads = 2 ∧
    c1Second.2 = Except.ok (sourceResult "neo4j" []) :=
  ⟨rfl, rfl, rfl, rfl⟩

/-- Witness for C1's amended theorem at the concrete scenario (default
cache, empty graph, query "db timeout"/Symptom). -/
theorem claim_empty_result_cached_but_requeried_witness :
    (queryExisting discreteModel c1World "db timeout" "Symptom").2 =
      Except.ok (sourceResult "neo4j" []) ∧
    (queryExisting discreteModel c1World "db timeout" "Symptom").1.cache =
      CacheHandle.available
        ((get_semantic_cache String).store discreteModel "db timeout" [] (some "Symptom")) ∧
    (queryExisting discreteModel c1World "db timeout" "Symptom").1.graph.reads =
      c1World.graph.reads + 1 ∧
    (queryExisting discreteModel
        (queryExisting discreteModel c1World "db timeout" "Symptom").1 "db timeout"
        "Symptom").2 = Except.ok (sourceResult "neo4j" []) ∧
    (queryExisting discreteModel
        (queryExisting discreteModel c1World "db timeout" "Symptom").1 "db timeout"
        "Symptom").1.graph.reads = c1World.graph.reads + 2 :=
  claim_empty_result_cached_but_requeried discreteModel c1World
    (get_semantic_cache String) "db timeout" "Symptom" rfl (by decide) rfl rfl

/-- C2 as amended: when the semantic cache backing store is unavailable,
`query_existing` does NOT fall through to the graph store — the exception
raised at `cache.check` aborts the operation (the graph store is never
queried) and propagates to `forward`'s catch-all, which converts it into a
JSON object with an "error" key; no exception escapes to the caller, but
the caller receives an error result, not a degraded query result. -/
theorem claim_cache_failure_error_result (M : EmbeddingModel V) (w : World V)
    (name label : String) (h : w.cache = CacheHandle.unavailable) :
    queryExisting M w name label = (w, Except.error PyErr.cacheUnavailable) ∧
    (∀ (jsonLoads : String → Option PyVal) (data : String),
      jsonLoads data = some (PyVal.dict [("name", PyVal.str name), ("label", PyVal.str label)]) →
      name ≠ "" → label ≠ "" →
      forward M jsonLoads w "query_existing" data =
        (w, PyVal.dict [("error", PyVal.str (errMsg PyErr.cacheUnavailable))])) := by
  obtain ⟨g, ch⟩ := w
  simp only at h
  subst h
  have hq : queryExisting M { graph := g, cache := CacheHandle.unavailable } name label =
      ({ graph := g, cache := CacheHandle.unavailable }, Except.error PyErr.cacheUnavailable) := by
    unfold queryExisting
    rfl
  refine ⟨hq, fun jsonLoads data hl hn hlbl => ?_⟩
  have hd : dispatch M { graph := g, cache := CacheHandle.unavailable } "query_existing"
      (PyVal.dict [("name", PyVal.str name), ("label", PyVal.str label)]) =
      ({ graph := g, cache := CacheHandle.unavailable }, Except.error PyErr.cacheUnavailable) := by
    unfold dispatch
    rw [if_neg (by decide), if_pos rfl]
    unfold queryExistingOp
    have e1 : pyGet (PyVal.dict [("name", PyVal.str name), ("label", PyVal.str label)])
        "name" = Except.ok (PyVal.str name) := rfl
    have e2 : pyGet (PyVal.dict [("name", PyVal.str name), ("label", PyVal.str label)])
        "label" = Except.ok (PyVal.str label) := rfl
    rw [e1, e2]
    have hcond : (!(pyTruthy (PyVal.str name)) || !(pyTruthy (PyVal.str label))) = false := by
      simp [pyTruthy, hn, hlbl]
    simp only [hcond, Bool.false_eq_true, if_false]
    exact hq
  unfold forward
  rw [hl]
  simp only [hd]

/-- The concrete world of the C2 scenario: empty graph, unreachable cache
backend. -/
def c2World : World String :=
  { graph := GraphStore.empty, cache := CacheHandle.unavailable }

/-- A parser returning a well-formed query payload for the C2 scenario. -/
def c2Loads : String → Option PyVal :=
  fun _ => some (PyVal.dict [("name", PyVal.str "db timeout"), ("label", PyVal.str "Symptom")])

/-- C2 counterexample: with the cache backend down, the query_existing
operation does not fall through to the graph store (zero read round trips)
and the caller receives a JSON error result — the operation does not
succeed with a store-backed result as the claim states. -/
theorem claim_cache_failure_counterexample :
    (forward discreteModel c2Loads c2World "query_existing" "payload").2 =
      PyVal.dict [("error", PyVal.str "Error connecting to Redis")] ∧
    (forward discreteModel c2Loads c2World "query_existing" "payload").1.graph.reads = 0 :=
  ⟨rfl, rfl⟩

/-- Witness for C2's amended theorem at the concrete scenario. -/
theorem claim_cache_failure_error_result_witness :
    queryExisting discreteModel c2World "db timeout" "Symptom" =
      (c2World, Except.error PyErr.cacheUnavailable) ∧
    forward discreteModel c2Loads c2World "query_existing" "payload" =
      (c2World, PyVal.dict [("error", PyVal.str (errMsg PyErr.cacheUnavailable))]) :=
  ⟨(claim_cache_failure_error_result discreteModel c2World "db timeout" "Symptom" rfl).1,
    (claim_cache_failure_error_result discreteModel c2World "db timeout" "Symptom" rfl).2
      c2Loads "payload" rfl (by decide) (by decide)⟩

/-! ## Warmup job (C9) -/

/-- C9: for a graph holding two nodes of the same label with the same name
but different `times_seen`, the Warmup Job stores one cache entry per node
under the same (name, label) key, in `times_seen`-descending order, each
store overwriting the previous entry for that exact key — so a subsequent
`check(name, label)` returns exactly the node warmup processed last (the
one with the smaller `times_seen`), the other being lost. -/
theorem claim_warmup_lossy_overwrite (M : EmbeddingModel V) (g : GraphStore)
    (sc : Neo4jSemanticCache V) (a b : GNode) (L N : String) (ta tb : Int)
    (hg : g.nodes = [a, b])
    (hal : a.label = L) (hbl : b.label = L)
    (han : a.props.lookup "name" = some (PyVal.str N))
    (hbn : b.props.lookup "name" = some (PyVal.str N))
    (hat : a.props.lookup "times_seen" = some (PyVal.int ta))
    (hbt : b.props.lookup "times_seen" = some (PyVal.int tb))
    (hlt : tb < ta)
    (hthr : 0 ≤ sc.distance_threshold) :
    (warmup_cache M g sc).2.check M N (some L) =
      some [{ node_id := b.id, name := N, created_at := some b.created_at, times_seen := some tb }] := by
  have hna : nodeName a = some N := by simp [nodeName, han]
  have hnb : nodeName b = some N := by simp [nodeName, hbn]
  have hta : nodeTimesSeen a = some ta := by simp [nodeTimesSeen, hat]
  have htb : nodeTimesSeen b = some tb := by simp [nodeTimesSeen, hbt]
  have hrows : warmupRows g =
      [{ wlabel := L, node_id := a.id, wname := N, created_at := a.created_at, times_seen := some ta },
       { wlabel := L, node_id := b.id, wname := N, created_at := b.created_at, times_seen := some tb }] := by
    unfold warmupRows
    rw [hg]
    simp only [List.filterMap, hna, hnb, hta, htb, hal, hbl, List.foldr, insertWRow,
      warmupLE, tsGE]
    simp [le_of_lt hlt]
  have hsc : (warmup_cache M g sc).2 =
      ((sc.store M N [{ node_id := a.id, name := N, created_at := some a.created_at, times_seen := some ta }] (some L)).store M N
        [{ node_id := b.id, name := N, created_at := some b.created_at, times_seen := some tb }] (some L)) := by
    unfold warmup_cache
    rw [hrows]
    simp [groupByLabel, groupAdd, rowSummary]
  rw [hsc]
  exact store_then_check M _ N _ (some L) hthr

/-- The first Symptom node of the C9 scenario: "timeout" seen 5 times. -/
def c9NodeA : GNode :=
  { id := 1
    label := "Symptom"
    props := [("name", PyVal.str "timeout"), ("times_seen", PyVal.int 5)]
    created_at := 10
    source := "agent"
    run_id := 0 }

/-- The second Symptom node of the C9 scenario: "timeout" seen once. -/
def c9NodeB : GNode :=
  { id := 2
    label := "Symptom"
    props := [("name", PyVal.str "timeout"), ("times_seen", PyVal.int 1)]
    created_at := 20
    source := "agent"
    run_id := 0 }

/-- The C9 graph: exactly the two same-named Symptom nodes. -/
def c9Graph : GraphStore :=
  { GraphStore.empty with nodes := [c9NodeA, c9NodeB], nextId := 3 }

/-- Witness for C9: after warmup over the two-"timeout" graph, the check
returns exactly the times_seen=1 node (processed last), not the
times_seen=5 one. -/
theorem claim_warmup_lossy_overwrite_witness :
    (1 : Int) < 5 ∧
    (warmup_cache discreteModel c9Graph (get_semantic_cache String)).2.check discreteModel
        "timeout" (some "Symptom") =
      some [{ node_id := 2, name := "timeout", created_at := some 20, times_seen := some 1 }] :=
  ⟨by decide,
    claim_warmup_lossy_overwrite discreteModel c9Graph (get_semantic_cache String)
      c9NodeA c9NodeB "Symptom" "timeout" 5 1 rfl rfl rfl rfl rfl rfl rfl
      (by decide) (by decide)⟩

/-! ## Graph write path (C3, C4, C5) -/


/-- Unfolding lemma for `mapFind` on a cons cell. -/
theorem mapFind_cons (p : PyVal × Nat) (rest : List (PyVal × Nat)) (k : PyVal) :
    mapFind (p :: rest) k = if pyBeq p.1 k = true then some p.2 else mapFind rest k := by
  obtain ⟨k2, v2⟩ := p
  rfl

/-- Only a string atom compares pyBeq-equal to a string atom. -/
theorem pyBeq_str_inv (x : PyVal) (t : String) (h : pyBeq x (PyVal.str t) = true) :
    x = PyVal.str t := by
  cases x <;> simp [pyBeq] at h
  simp [h]

/-- Dict lookup after insertion with string keys: the inserted binding is
found under its own key, all other string keys are unaffected. -/
theorem mapFind_insert_str (m : List (PyVal × Nat)) (t s : String) (v : Nat) :
    mapFind (mapInsert m (PyVal.str t) v) (PyVal.str s) =
      if s = t then some v else mapFind m (PyVal.str s) := by
  induction m with
  | nil =>
    simp only [mapInsert, List.filter_nil, List.nil_append]
    rw [mapFind_cons]
    simp only [pyBeq]
    by_cases h : s = t
    · subst h
      simp
    · have hts : ¬ ((t == s) = true) := by
        simp only [beq_iff_eq]
        exact fun hh => h hh.symm
      rw [if_neg hts, if_neg h]
  | cons p rest ih =>
    have hstep : mapFind (mapInsert rest (PyVal.str t) v) (PyVal.str s) =
        mapFind ((rest.filter fun q => !(pyBeq q.1 (PyVal.str t))) ++ [(PyVal.str t, v)])
          (PyVal.str s) := rfl
    by_cases hp : pyBeq p.1 (PyVal.str t) = true
    · have hp2 := pyBeq_str_inv p.1 t hp
      simp only [mapInsert, List.filter_cons, hp, Bool.not_true, if_neg, Bool.false_eq_true,
        ite_false]
      rw [← hstep, ih]
      rw [mapFind_cons, hp2]
      simp only [pyBeq, beq_iff_eq]
      by_cases hst : s = t
      · rw [if_pos hst, if_pos hst]
      · rw [if_neg hst, if_neg hst, if_neg]
        exact fun hh => hst hh.symm
    · simp only [mapInsert, List.filter_cons, hp, Bool.not_false, if_pos, Bool.false_eq_true,
        ite_true]
      rw [List.cons_append, mapFind_cons]
      rw [mapFind_cons]
      by_cases hq : pyBeq p.1 (PyVal.str s) = true
      · have hq2 := pyBeq_str_inv p.1 s hq
        have hst : ¬ s = t := by
          intro hh
          subst hh
          exact hp hq
        rw [if_pos hq, if_neg hst, if_pos hq]
      · rw [if_neg hq, if_neg hq]
        rw [← hstep, ih]

/-- The node phase of `write_knowledge_graph` on well-formed payload
nodes: create each node in order, recording the logical-to-internal id
mapping (dict insertion, last write wins). -/
def nodesPhaseG (rid : Nat) : GraphStore → List NodeSpecL → List (PyVal × Nat) →
    GraphStore × List (PyVal × Nat)
  | st, [], m => (st, m)
  | st, n :: rest, m =>
    nodesPhaseG rid (create_node st n.nlabel n.nprops rid).1 rest
      (mapInsert m (PyVal.str n.nid) st.nextId)

/-- The graph nodes the node phase creates, in creation order. -/
def phaseNodes (rid : Nat) : GraphStore → List NodeSpecL → List GNode
  | _, [] => []
  | st, n :: rest =>
    { id := st.nextId
      label := n.nlabel
      props := n.nprops
      created_at := st.clock
      source := "agent"
      run_id := rid } :: phaseNodes rid (create_node st n.nlabel n.nprops rid).1 rest

/-- On well-formed node dicts, the node-creation loop is exactly the node
phase, and it always succeeds. -/
theorem createNodesLoop_structured (rid : Nat) (ns : List NodeSpecL) :
    ∀ (st : GraphStore) (m : List (PyVal × Nat)),
    createNodesLoop st rid (ns.map nodeSpecToPy) m =
      ((nodesPhaseG rid st ns m).1, Except.ok (nodesPhaseG rid st ns m).2) := by
  induction ns with
  | nil => intro st m; rfl
  | cons n rest ih =>
    intro st m
    have step : createNodesLoop st rid ((n :: rest).map nodeSpecToPy) m =
        createNodesLoop (create_node st n.nlabel n.nprops rid).1 rid
          (rest.map nodeSpecToPy) (mapInsert m (PyVal.str n.nid) st.nextId) := rfl
    rw [step, ih]
    rfl

/-- Full characterization of the store after the node phase: the created
nodes are appended, ids advance by the node count, the clock ticks once
per creation, a createNode event is logged per node in creation order, and
nothing else changes. -/
theorem nodesPhaseG_graph (rid : Nat) (ns : List NodeSpecL) :
    ∀ (st : GraphStore) (m : List (PyVal × Nat)),
    (nodesPhaseG rid st ns m).1 =
      { st with
        nodes := st.nodes ++ phaseNodes rid st ns
        nextId := st.nextId + ns.length
        clock := st.clock + ns.length
        events := st.events ++ (phaseNodes rid st ns).map fun x => GEvent.createNode x.id } := by
  induction ns with
  | nil =>
    intro st m
    simp [nodesPhaseG, phaseNodes]
  | cons n rest ih =>
    intro st m
    show (nodesPhaseG rid (create_node st n.nlabel n.nprops rid).1 rest
        (mapInsert m (PyVal.str n.nid) st.nextId)).1 = _
    rw [ih]
    simp only [create_node, phaseNodes, List.length_cons, List.map_cons]
    congr 1
    · omega
    · push_cast
      ring
    · rw [List.append_assoc]
      rfl
    · rw [List.append_assoc]
      rfl

/-- The node phase creates exactly one node per payload node. -/
theorem phaseNodes_length (rid : Nat) (ns : List NodeSpecL) :
    ∀ st : GraphStore, (phaseNodes rid st ns).length = ns.length := by
  induction ns with
  | nil => intro st; rfl
  | cons n rest ih =>
    intro st
    simp [phaseNodes, ih]

/-- Every node the phase creates carries the call's run id, and its
store-assigned id lies in the fresh range `[st.nextId, st.nextId + count)`. -/
theorem phaseNodes_mem (rid : Nat) (ns : List NodeSpecL) :
    ∀ st : GraphStore, ∀ x ∈ phaseNodes rid st ns,
      x.run_id = rid ∧ st.nextId ≤ x.id ∧ x.id < st.nextId + ns.length := by
  induction ns with
  | nil => intro st x hx; simp [phaseNodes] at hx
  | cons n rest ih =>
    intro st x hx
    simp only [phaseNodes, List.mem_cons] at hx
    rcases hx with hx | hx
    · subst hx
      refine ⟨rfl, le_refl _, by simp⟩
    · have h2 := ih (create_node st n.nlabel n.nprops rid).1 x hx
      have hnext : (create_node st n.nlabel n.nprops rid).1.nextId = st.nextId + 1 := rfl
      rw [hnext] at h2
      have hlen : (n :: rest).length = rest.length + 1 := rfl
      exact ⟨h2.1, by omega, by rw [hlen]; omega⟩

/-- The mapping after the node phase: keys among the payload's logical ids
resolve to some internal id; all other string keys are untouched. -/
theorem nodesPhaseG_mapFind_absent (rid : Nat) (ns : List NodeSpecL) :
    ∀ (st : GraphStore) (m : List (PyVal × Nat)) (k : String),
      (k ∉ ns.map fun n => n.nid) →
      mapFind (nodesPhaseG rid st ns m).2 (PyVal.str k) = mapFind m (PyVal.str k) := by
  induction ns with
  | nil => intro st m k _; rfl
  | cons n rest ih =>
    intro st m k hk
    simp only [List.map_cons, List.mem_cons] at hk
    push_neg at hk
    show mapFind (nodesPhaseG rid (create_node st n.nlabel n.nprops rid).1 rest
        (mapInsert m (PyVal.str n.nid) st.nextId)).2 (PyVal.str k) = _
    rw [ih _ _ k hk.2, mapFind_insert_str, if_neg hk.1]

/-- A key among the payload's logical ids resolves after the node phase. -/
theorem nodesPhaseG_mapFind_present (rid : Nat) (ns : List NodeSpecL) :
    ∀ (st : GraphStore) (m : List (PyVal × Nat)) (k : String),
      (k ∈ ns.map fun n => n.nid) →
      (mapFind (nodesPhaseG rid st ns m).2 (PyVal.str k)).isSome := by
  induction ns with
  | nil => intro st m k hk; simp at hk
  | cons n rest ih =>
    intro st m k hk
    show (mapFind (nodesPhaseG rid (create_node st n.nlabel n.nprops rid).1 rest
        (mapInsert m (PyVal.str n.nid) st.nextId)).2 (PyVal.str k)).isSome
    by_cases hr : k ∈ rest.map fun n => n.nid
    · exact ih _ _ k hr
    · rw [nodesPhaseG_mapFind_absent rid rest _ _ k hr, mapFind_insert_str]
      simp only [List.map_cons, List.mem_cons] at hk
      rcases hk with hk | hk
      · rw [if_pos hk]
        rfl
      · exact absurd hk hr

/-- Whether the store holds a node with the given internal id. -/
def containsId (st : GraphStore) (v : Nat) : Bool :=
  st.nodes.any fun n => n.id == v

/-- Node appends preserve id containment. -/
theorem containsId_append (st : GraphStore) (new : List GNode) (v : Nat)
    (h : containsId st v = true) :
    (st.nodes ++ new).any (fun n => n.id == v) = true := by
  simp only [containsId, List.any_eq_true] at h
  simp only [List.any_eq_true]
  obtain ⟨x, hx, hv⟩ := h
  exact ⟨x, List.mem_append_left _ hx, hv⟩

/-- After the node phase, every internal id the mapping can produce (from a
string key) denotes a node present in the store. -/
theorem nodesPhaseG_mapped_present (rid : Nat) (ns : List NodeSpecL) :
    ∀ (st : GraphStore) (m : List (PyVal × Nat)),
      (∀ (s : String) (v : Nat), mapFind m (PyVal.str s) = some v → containsId st v = true) →
      ∀ (s : String) (v : Nat),
        mapFind (nodesPhaseG rid st ns m).2 (PyVal.str s) = some v →
        containsId (nodesPhaseG rid st ns m).1 v = true := by
  induction ns with
  | nil => intro st m h s v hf; exact h s v hf
  | cons n rest ih =>
    intro st m h s v hf
    show containsId (nodesPhaseG rid (create_node st n.nlabel n.nprops rid).1 rest
        (mapInsert m (PyVal.str n.nid) st.nextId)).1 v = true
    refine ih _ _ ?_ s v hf
    intro s2 v2 hf2
    rw [mapFind_insert_str] at hf2
    by_cases hs : s2 = n.nid
    · rw [if_pos hs] at hf2
      cases hf2
      simp [containsId, create_node]
    · rw [if_neg hs] at hf2
      have := h s2 v2 hf2
      simp only [containsId, create_node]
      exact containsId_append st _ v2 this

/-- `st2` agrees with `st` on nodes, node-id supply, uuid supply and read
counter (what the relationship loop cannot change). -/
def PreservedN (st st2 : GraphStore) : Prop :=
  st2.nodes = st.nodes ∧ st2.nextId = st.nextId ∧
  st2.uuidCounter = st.uuidCounter ∧ st2.reads = st.reads

/-- Reflexivity of `PreservedN`. -/
theorem PreservedN_refl (st : GraphStore) : PreservedN st st :=
  ⟨rfl, rfl, rfl, rfl⟩

/-- Transitivity of `PreservedN`. -/
theorem PreservedN_trans {a b c : GraphStore} (h1 : PreservedN a b) (h2 : PreservedN b c) :
    PreservedN a c :=
  ⟨h2.1.trans h1.1, h2.2.1.trans h1.2.1, h2.2.2.1.trans h1.2.2.1, h2.2.2.2.trans h1.2.2.2⟩

/-- `create_relationship` never touches nodes, node ids, the uuid supply,
or the read counter. -/
theorem create_relationship_preservedN (st : GraphStore) (t : String) (s e : Nat)
    (props : List (String × PyVal)) (rid : Nat) (st2 : GraphStore) (r : Except PyErr Nat)
    (heq : create_relationship st t s e props rid = (st2, r)) : PreservedN st st2 := by
  have h : PreservedN st (create_relationship st t s e props rid).1 := by
    unfold create_relationship
    split <;> exact ⟨rfl, rfl, rfl, rfl⟩
  rw [heq] at h
  exact h

/-- The relationship loop never touches nodes, node ids, the uuid supply,
or the read counter, on any payload and any outcome. -/
theorem relsLoop_preservedN (rid : Nat) (items : List PyVal) :
    ∀ (st : GraphStore) (m : List (PyVal × Nat)),
    PreservedN st (createRelsLoop st rid items m).1 := by
  induction items with
  | nil => intro st m; exact PreservedN_refl st
  | cons rel rest ih =>
    intro st m
    unfold createRelsLoop
    repeat' split
    all_goals first
      | exact PreservedN_refl st
      | (rename_i st2 x heq
         exact PreservedN_trans
           (create_relationship_preservedN _ _ _ _ _ _ _ _ heq) (ih st2 m))
      | (rename_i st2 x heq
         exact create_relationship_preservedN _ _ _ _ _ _ _ _ heq)

/-- The relationship record one successful `create_relationship` call
appends. -/
def mkGRel (st : GraphStore) (t : String) (sid eid : Nat)
    (props : List (String × PyVal)) (rid : Nat) : GRel :=
  { id := st.nextRelId
    relType := t
    startId := sid
    endId := eid
    props := props
    created_at := st.clock
    run_id := rid }

/-- The store after one successful relationship creation. -/
def relAppend (st : GraphStore) (gr : GRel) : GraphStore :=
  { st with
    nextRelId := st.nextRelId + 1
    clock := st.clock + 1
    rels := st.rels ++ [gr]
    events := st.events ++ [GEvent.createRel gr.id gr.startId gr.endId] }

/-- `create_relationship` on resolvable endpoints: append the relationship
and return its fresh id. -/
theorem create_relationship_ok (st : GraphStore) (t : String) (sid eid : Nat)
    (props : List (String × PyVal)) (rid : Nat)
    (hcs : containsId st sid = true) (hce : containsId st eid = true) :
    create_relationship st t sid eid props rid =
      (relAppend st (mkGRel st t sid eid props rid), Except.ok st.nextRelId) := by
  have h1 : (st.nodes.any fun a => a.id == sid) = true := hcs
  have h2 : (st.nodes.any fun b => b.id == eid) = true := hce
  unfold create_relationship
  rw [if_pos (by rw [h1, h2]; rfl)]
  rfl

/-- One structured step of the relationship loop: field reads reduce and
the loop proceeds by resolving the two logical ids. -/
theorem createRelsLoop_cons_str (st : GraphStore) (rid : Nat) (r : RelSpecL)
    (rest : List PyVal) (m : List (PyVal × Nat)) :
    createRelsLoop st rid (relSpecToPy r :: rest) m =
      (match mapFind m (PyVal.str r.rstart) with
       | none => (st, Except.error (PyErr.keyError (PyVal.str r.rstart)))
       | some sid => match mapFind m (PyVal.str r.rend) with
         | none => (st, Except.error (PyErr.keyError (PyVal.str r.rend)))
         | some eid => match create_relationship st r.rtype sid eid r.rprops rid with
           | (st2, Except.ok _) => createRelsLoop st2 rid rest m
           | (st2, Except.error e) => (st2, Except.error e)) := rfl

/-- Success of the relationship loop on a structured payload whose logical
ids all resolve to store nodes: every relationship is created, between
exactly the internal ids its endpoints were mapped to, in order, and the
result is `ok`; ids, clock and event log advance accordingly. -/
theorem relsLoop_ok (rid : Nat) (rs : List RelSpecL) :
    ∀ (st : GraphStore) (m : List (PyVal × Nat)),
    (∀ r ∈ rs, (mapFind m (PyVal.str r.rstart)).isSome ∧ (mapFind m (PyVal.str r.rend)).isSome) →
    (∀ (s : String) (v : Nat), mapFind m (PyVal.str s) = some v → containsId st v = true) →
    ∃ newRels : List GRel,
      createRelsLoop st rid (rs.map relSpecToPy) m =
        ({ st with
            rels := st.rels ++ newRels
            nextRelId := st.nextRelId + rs.length
            clock := st.clock + rs.length
            events := st.events ++ newRels.map fun x => GEvent.createRel x.id x.startId x.endId },
          Except.ok ()) ∧
      List.Forall₂ (fun (r : RelSpecL) (gr : GRel) =>
        mapFind m (PyVal.str r.rstart) = some gr.startId ∧
        mapFind m (PyVal.str r.rend) = some gr.endId ∧
        gr.relType = r.rtype ∧ gr.run_id = rid) rs newRels := by
  induction rs with
  | nil =>
    intro st m hpres hmap
    refine ⟨[], ?_, List.Forall₂.nil⟩
    simp [createRelsLoop]
  | cons r rest ih =>
    intro st m hpres hmap
    obtain ⟨hs0, he0⟩ := hpres r (List.mem_cons_self r rest)
    obtain ⟨sid, hs⟩ := Option.isSome_iff_exists.mp hs0
    obtain ⟨eid, he⟩ := Option.isSome_iff_exists.mp he0
    have hcs : containsId st sid = true := hmap _ _ hs
    have hce : containsId st eid = true := hmap _ _ he
    have hcr := create_relationship_ok st r.rtype sid eid r.rprops rid hcs hce
    have hstep := createRelsLoop_cons_str st rid r (rest.map relSpecToPy) m
    simp only [hs, he, hcr] at hstep
    have hpres2 : ∀ q ∈ rest, (mapFind m (PyVal.str q.rstart)).isSome ∧
        (mapFind m (PyVal.str q.rend)).isSome :=
      fun q hq => hpres q (List.mem_cons_of_mem r hq)
    have hmap2 : ∀ (s : String) (v : Nat), mapFind m (PyVal.str s) = some v →
        containsId (relAppend st (mkGRel st r.rtype sid eid r.rprops rid)) v = true :=
      fun s v hf => hmap s v hf
    obtain ⟨newRels, hloop, hfa⟩ := ih _ m hpres2 hmap2
    refine ⟨mkGRel st r.rtype sid eid r.rprops rid :: newRels,
      ?_, List.Forall₂.cons ⟨hs, he, rfl, rfl⟩ hfa⟩
    simp only [List.map_cons]
    rw [hstep, hloop]
    simp only [Prod.mk.injEq]
    refine ⟨?_, trivial⟩
    simp only [relAppend]
    congr 1
    · simp only [List.length_cons]
      omega
    · simp only [List.length_cons]
      push_cast
      ring
    · rw [List.append_assoc]
      rfl
    · rw [List.append_assoc]
      rfl

/-- The key on which `id_mapping` lookup raises for a relationship spec:
the start id when it is unmapped (checked first), else the end id when it
is unmapped, else none. -/
def firstMissingKey (m : List (PyVal × Nat)) (r : RelSpecL) : Option PyVal :=
  match mapFind m (PyVal.str r.rstart) with
  | none => some (PyVal.str r.rstart)
  | some _ =>
    match mapFind m (PyVal.str r.rend) with
    | none => some (PyVal.str r.rend)
    | some _ => none

/-- Failure of the relationship loop at the first dangling relationship:
the relationships before it are all created, the loop raises `KeyError` on
the unmapped logical id, and neither the dangling relationship nor
anything after it is created. -/
theorem relsLoop_fail (rid : Nat) (pre : List RelSpecL) (bad : RelSpecL)
    (post : List RelSpecL) :
    ∀ (st : GraphStore) (m : List (PyVal × Nat)),
    (∀ r ∈ pre, (mapFind m (PyVal.str r.rstart)).isSome ∧ (mapFind m (PyVal.str r.rend)).isSome) →
    (∀ (s : String) (v : Nat), mapFind m (PyVal.str s) = some v → containsId st v = true) →
    ∀ k, firstMissingKey m bad = some k →
    ∃ newRels : List GRel,
      createRelsLoop st rid ((pre ++ bad :: post).map relSpecToPy) m =
        ({ st with
            rels := st.rels ++ newRels
            nextRelId := st.nextRelId + pre.length
            clock := st.clock + pre.length
            events := st.events ++ newRels.map fun x => GEvent.createRel x.id x.startId x.endId },
          Except.error (PyErr.keyError k)) ∧
      newRels.length = pre.length := by
  induction pre with
  | nil =>
    intro st m _ hmap k hk
    refine ⟨[], ?_, rfl⟩
    simp only [List.nil_append, List.map_cons]
    have hstep := createRelsLoop_cons_str st rid bad (post.map relSpecToPy) m
    unfold firstMissingKey at hk
    cases hms : mapFind m (PyVal.str bad.rstart) with
    | none =>
      simp only [hms] at hk hstep
      cases hk
      rw [hstep]
      simp
    | some sid =>
      cases hme : mapFind m (PyVal.str bad.rend) with
      | none =>
        simp only [hms, hme] at hk hstep
        cases hk
        rw [hstep]
        simp
      | some eid =>
        simp only [hms, hme] at hk
        cases hk
  | cons p rest ih =>
    intro st m hpres hmap k hk
    obtain ⟨hs0, he0⟩ := hpres p (List.mem_cons_self p rest)
    obtain ⟨sid, hs⟩ := Option.isSome_iff_exists.mp hs0
    obtain ⟨eid, he⟩ := Option.isSome_iff_exists.mp he0
    have hcs : containsId st sid = true := hmap _ _ hs
    have hce : containsId st eid = true := hmap _ _ he
    have hcr := create_relationship_ok st p.rtype sid eid p.rprops rid hcs hce
    have hstep := createRelsLoop_cons_str st rid p ((rest ++ bad :: post).map relSpecToPy) m
    simp only [hs, he, hcr] at hstep
    have hpres2 : ∀ q ∈ rest, (mapFind m (PyVal.str q.rstart)).isSome ∧
        (mapFind m (PyVal.str q.rend)).isSome :=
      fun q hq => hpres q (List.mem_cons_of_mem p hq)
    have hmap2 : ∀ (s : String) (v : Nat), mapFind m (PyVal.str s) = some v →
        containsId (relAppend st (mkGRel st p.rtype sid eid p.rprops rid)) v = true :=
      fun s v hf => hmap s v hf
    obtain ⟨newRels, hloop, hlen⟩ :=
      ih (relAppend st (mkGRel st p.rtype sid eid p.rprops rid)) m hpres2 hmap2 k hk
    refine ⟨mkGRel st p.rtype sid eid p.rprops rid :: newRels, ?_, by simp [hlen]⟩
    simp only [List.cons_append, List.map_cons]
    rw [hstep, hloop]
    simp only [Prod.mk.injEq]
    refine ⟨?_, by first | rfl | trivial⟩
    simp only [relAppend]
    congr 1
    · simp only [List.length_cons]
      omega
    · simp only [List.length_cons]
      push_cast
      ring
    · rw [List.append_assoc]
      rfl
    · rw [List.append_assoc]
      rfl

/-- `write_knowledge_graph` on a structured payload: draw the run id, run
the node phase (which always succeeds on well-formed node dicts), then run
the relationship loop on the resulting id mapping; the returned counts are
the payload list lengths. -/
theorem write_mkPayload (st : GraphStore) (ns : List NodeSpecL) (rs : List RelSpecL) :
    write_knowledge_graph st (mkPayload ns rs) =
      (match createRelsLoop
          (nodesPhaseG st.uuidCounter { st with uuidCounter := st.uuidCounter + 1 } ns []).1
          st.uuidCounter (rs.map relSpecToPy)
          (nodesPhaseG st.uuidCounter { st with uuidCounter := st.uuidCounter + 1 } ns []).2 with
       | (st3, Except.error e) => (st3, Except.error e)
       | (st3, Except.ok _) => (st3, Except.ok (ns.length, rs.length, st.uuidCounter))) := by
  have h0 : write_knowledge_graph st (mkPayload ns rs) =
      (match createNodesLoop { st with uuidCounter := st.uuidCounter + 1 } st.uuidCounter
          (ns.map nodeSpecToPy) [] with
       | (st2, Except.error e) => (st2, Except.error e)
       | (st2, Except.ok m) =>
         match createRelsLoop st2 st.uuidCounter (rs.map relSpecToPy) m with
         | (st3, Except.error e) => (st3, Except.error e)
         | (st3, Except.ok _) =>
           (st3, Except.ok ((ns.map nodeSpecToPy).length, (rs.map relSpecToPy).length,
             st.uuidCounter))) := rfl
  rw [h0, createNodesLoop_structured]
  simp only [List.length_map]

/-- The committed store state of a structured write is the relationship
loop's final state, whatever the outcome. -/
theorem write_mkPayload_fst (st : GraphStore) (ns : List NodeSpecL) (rs : List RelSpecL) :
    (write_knowledge_graph st (mkPayload ns rs)).1 =
      (createRelsLoop
        (nodesPhaseG st.uuidCounter { st with uuidCounter := st.uuidCounter + 1 } ns []).1
        st.uuidCounter (rs.map relSpecToPy)
        (nodesPhaseG st.uuidCounter { st with uuidCounter := st.uuidCounter + 1 } ns []).2).1 := by
  rw [write_mkPayload]
  rcases hrl : createRelsLoop
      (nodesPhaseG st.uuidCounter { st with uuidCounter := st.uuidCounter + 1 } ns []).1
      st.uuidCounter (rs.map relSpecToPy)
      (nodesPhaseG st.uuidCounter { st with uuidCounter := st.uuidCounter + 1 } ns []).2
    with ⟨st3, r3⟩
  cases r3 <;> rfl

/-- Committed state of a structured write: nodes are the payload's nodes
appended, node-id supply advances by the node count, and the uuid supply
by one — independent of the relationship phase's outcome. -/
theorem write_mkPayload_state (st : GraphStore) (ns : List NodeSpecL) (rs : List RelSpecL) :
    (write_knowledge_graph st (mkPayload ns rs)).1.nodes =
      st.nodes ++ phaseNodes st.uuidCounter { st with uuidCounter := st.uuidCounter + 1 } ns ∧
    (write_knowledge_graph st (mkPayload ns rs)).1.nextId = st.nextId + ns.length ∧
    (write_knowledge_graph st (mkPayload ns rs)).1.uuidCounter = st.uuidCounter + 1 := by
  rw [write_mkPayload_fst]
  have hp := relsLoop_preservedN st.uuidCounter (rs.map relSpecToPy)
    (nodesPhaseG st.uuidCounter { st with uuidCounter := st.uuidCounter + 1 } ns []).1
    (nodesPhaseG st.uuidCounter { st with uuidCounter := st.uuidCounter + 1 } ns []).2
  have hg := nodesPhaseG_graph st.uuidCounter ns
    { st with uuidCounter := st.uuidCounter + 1 } []
  refine ⟨?_, ?_, ?_⟩
  · rw [hp.1, hg]
  · rw [hp.2.1, hg]
  · rw [hp.2.2.1, hg]

/-- C3: `write_graph` is not idempotent. Writing the same structured
payload twice doubles the node count — the second call creates every
payload node again, under fresh store-assigned internal ids (disjoint from
the first call's) and a fresh run id — whatever the relationship phase
does. -/
theorem claim_write_graph_not_idempotent (st : GraphStore) (ns : List NodeSpecL)
    (rs : List RelSpecL) :
    (write_knowledge_graph (write_knowledge_graph st (mkPayload ns rs)).1
        (mkPayload ns rs)).1.nodes.length = st.nodes.length + 2 * ns.length ∧
    ((write_knowledge_graph st (mkPayload ns rs)).1.nodes.drop st.nodes.length).length =
      ns.length ∧
    (∀ a ∈ (write_knowledge_graph st (mkPayload ns rs)).1.nodes.drop st.nodes.length,
     ∀ b ∈ (write_knowledge_graph (write_knowledge_graph st (mkPayload ns rs)).1
         (mkPayload ns rs)).1.nodes.drop
         (write_knowledge_graph st (mkPayload ns rs)).1.nodes.length,
      a.id ≠ b.id ∧ a.run_id ≠ b.run_id) := by
  obtain ⟨h1n, h1i, h1u⟩ := write_mkPayload_state st ns rs
  obtain ⟨h2n, h2i, h2u⟩ :=
    write_mkPayload_state (write_knowledge_graph st (mkPayload ns rs)).1 ns rs
  have l1 : (phaseNodes st.uuidCounter
      { st with uuidCounter := st.uuidCounter + 1 } ns).length = ns.length :=
    phaseNodes_length _ _ _
  have l2 : (phaseNodes (write_knowledge_graph st (mkPayload ns rs)).1.uuidCounter
      { (write_knowledge_graph st (mkPayload ns rs)).1 with
        uuidCounter := (write_knowledge_graph st (mkPayload ns rs)).1.uuidCounter + 1 }
      ns).length = ns.length :=
    phaseNodes_length _ _ _
  refine ⟨?_, ?_, ?_⟩
  · have e2 : ((write_knowledge_graph (write_knowledge_graph st (mkPayload ns rs)).1
        (mkPayload ns rs)).1.nodes).length =
        ((write_knowledge_graph st (mkPayload ns rs)).1.nodes).length + ns.length := by
      rw [h2n, List.length_append, l2]
    have e1 : ((write_knowledge_graph st (mkPayload ns rs)).1.nodes).length =
        st.nodes.length + ns.length := by
      rw [h1n, List.length_append, l1]
    omega
  · rw [h1n, List.drop_left]
    exact l1
  · intro a ha b hb
    rw [h1n, List.drop_left] at ha
    rw [h2n, List.drop_left] at hb
    have hma := phaseNodes_mem st.uuidCounter ns
      { st with uuidCounter := st.uuidCounter + 1 } a ha
    have hmb := phaseNodes_mem (write_knowledge_graph st (mkPayload ns rs)).1.uuidCounter ns
      { (write_knowledge_graph st (mkPayload ns rs)).1 with
        uuidCounter := (write_knowledge_graph st (mkPayload ns rs)).1.uuidCounter + 1 } b hb
    have ha_id : a.id < st.nextId + ns.length := hma.2.2
    have hb_id : st.nextId + ns.length ≤ b.id := by
      have h2 : (write_knowledge_graph st (mkPayload ns rs)).1.nextId ≤ b.id := hmb.2.1
      rw [h1i] at h2
      exact h2
    constructor
    · omega
    · rw [hma.1, hmb.1, h1u]
      omega

/-- `write_knowledge_graph` reads the two top-level lists by key, so the
reversed submission order produces the same computation. -/
theorem write_mkPayloadRev (st : GraphStore) (ns : List NodeSpecL) (rs : List RelSpecL) :
    write_knowledge_graph st (mkPayloadRev ns rs) =
      (match createRelsLoop
          (nodesPhaseG st.uuidCounter { st with uuidCounter := st.uuidCounter + 1 } ns []).1
          st.uuidCounter (rs.map relSpecToPy)
          (nodesPhaseG st.uuidCounter { st with uuidCounter := st.uuidCounter + 1 } ns []).2 with
       | (st3, Except.error e) => (st3, Except.error e)
       | (st3, Except.ok _) => (st3, Except.ok (ns.length, rs.length, st.uuidCounter))) := by
  have h0 : write_knowledge_graph st (mkPayloadRev ns rs) =
      (match createNodesLoop { st with uuidCounter := st.uuidCounter + 1 } st.uuidCounter
          (ns.map nodeSpecToPy) [] with
       | (st2, Except.error e) => (st2, Except.error e)
       | (st2, Except.ok m) =>
         match createRelsLoop st2 st.uuidCounter (rs.map relSpecToPy) m with
         | (st3, Except.error e) => (st3, Except.error e)
         | (st3, Except.ok _) =>
           (st3, Except.ok ((ns.map nodeSpecToPy).length, (rs.map relSpecToPy).length,
             st.uuidCounter))) := rfl
  rw [h0, createNodesLoop_structured]
  simp only [List.length_map]

/-- C4: on a payload whose relationships all reference logical node ids
present in the node list, the write succeeds with the payload counts; the
two top-level lists can be submitted in either order with identical
results; every node-creation write transaction precedes every
relationship-creation write transaction; and every relationship is
created between exactly the store-assigned ids its logical endpoints were
mapped to by the id mapping the node phase built. -/
theorem claim_write_two_phase_order (st : GraphStore) (ns : List NodeSpecL)
    (rs : List RelSpecL)
    (h : ∀ r ∈ rs, (r.rstart ∈ ns.map fun n => n.nid) ∧ (r.rend ∈ ns.map fun n => n.nid)) :
    write_knowledge_graph st (mkPayloadRev ns rs) =
      write_knowledge_graph st (mkPayload ns rs) ∧
    (write_knowledge_graph st (mkPayload ns rs)).2 =
      Except.ok (ns.length, rs.length, st.uuidCounter) ∧
    (∃ nevs revs,
      (write_knowledge_graph st (mkPayload ns rs)).1.events = st.events ++ nevs ++ revs ∧
      (∀ e ∈ nevs, ∃ i, e = GEvent.createNode i) ∧
      (∀ e ∈ revs, ∃ i a b, e = GEvent.createRel i a b)) ∧
    (∃ newRels : List GRel,
      (write_knowledge_graph st (mkPayload ns rs)).1.rels = st.rels ++ newRels ∧
      List.Forall₂ (fun (r : RelSpecL) (gr : GRel) =>
        mapFind (nodesPhaseG st.uuidCounter
            { st with uuidCounter := st.uuidCounter + 1 } ns []).2
          (PyVal.str r.rstart) = some gr.startId ∧
        mapFind (nodesPhaseG st.uuidCounter
            { st with uuidCounter := st.uuidCounter + 1 } ns []).2
          (PyVal.str r.rend) = some gr.endId ∧
        gr.relType = r.rtype ∧ gr.run_id = st.uuidCounter) rs newRels) := by
  have hpres : ∀ r ∈ rs,
      (mapFind (nodesPhaseG st.uuidCounter
        { st with uuidCounter := st.uuidCounter + 1 } ns []).2 (PyVal.str r.rstart)).isSome ∧
      (mapFind (nodesPhaseG st.uuidCounter
        { st with uuidCounter := st.uuidCounter + 1 } ns []).2 (PyVal.str r.rend)).isSome :=
    fun r hr =>
      ⟨nodesPhaseG_mapFind_present st.uuidCounter ns _ [] r.rstart (h r hr).1,
       nodesPhaseG_mapFind_present st.uuidCounter ns _ [] r.rend (h r hr).2⟩
  have hmap : ∀ (s : String) (v : Nat),
      mapFind (nodesPhaseG st.uuidCounter
        { st with uuidCounter := st.uuidCounter + 1 } ns []).2 (PyVal.str s) = some v →
      containsId (nodesPhaseG st.uuidCounter
        { st with uuidCounter := st.uuidCounter + 1 } ns []).1 v = true :=
    nodesPhaseG_mapped_present st.uuidCounter ns _ [] (fun s v hf => by cases hf)
  obtain ⟨newRels, hloop, hfa⟩ := relsLoop_ok st.uuidCounter rs
    (nodesPhaseG st.uuidCounter { st with uuidCounter := st.uuidCounter + 1 } ns []).1
    (nodesPhaseG st.uuidCounter { st with uuidCounter := st.uuidCounter + 1 } ns []).2
    hpres hmap
  have hg := nodesPhaseG_graph st.uuidCounter ns
    { st with uuidCounter := st.uuidCounter + 1 } []
  have hww : write_knowledge_graph st (mkPayload ns rs) =
      ({ (nodesPhaseG st.uuidCounter { st with uuidCounter := st.uuidCounter + 1 } ns []).1 with
          rels := (nodesPhaseG st.uuidCounter
            { st with uuidCounter := st.uuidCounter + 1 } ns []).1.rels ++ newRels
          nextRelId := (nodesPhaseG st.uuidCounter
            { st with uuidCounter := st.uuidCounter + 1 } ns []).1.nextRelId + rs.length
          clock := (nodesPhaseG st.uuidCounter
            { st with uuidCounter := st.uuidCounter + 1 } ns []).1.clock + rs.length
          events := (nodesPhaseG st.uuidCounter
            { st with uuidCounter := st.uuidCounter + 1 } ns []).1.events ++
            newRels.map fun x => GEvent.createRel x.id x.startId x.endId },
        Except.ok (ns.length, rs.length, st.uuidCounter)) := by
    rw [write_mkPayload, hloop]
  refine ⟨(write_mkPayloadRev st ns rs).trans (write_mkPayload st ns rs).symm,
    ?_, ?_, ?_⟩
  · rw [hww]
  · refine ⟨(phaseNodes st.uuidCounter
        { st with uuidCounter := st.uuidCounter + 1 } ns).map (fun x => GEvent.createNode x.id),
      newRels.map fun x => GEvent.createRel x.id x.startId x.endId, ?_, ?_, ?_⟩
    · rw [hww]
      show (nodesPhaseG st.uuidCounter
          { st with uuidCounter := st.uuidCounter + 1 } ns []).1.events ++
          (newRels.map fun x => GEvent.createRel x.id x.startId x.endId) = _
      rw [hg]
    · intro e he
      obtain ⟨x, _, hxe⟩ := List.mem_map.mp he
      exact ⟨x.id, hxe.symm⟩
    · intro e he
      obtain ⟨x, _, hxe⟩ := List.mem_map.mp he
      exact ⟨x.id, x.startId, x.endId, hxe.symm⟩
  · refine ⟨newRels, ?_, hfa⟩
    rw [hww]
    show (nodesPhaseG st.uuidCounter
        { st with uuidCounter := st.uuidCounter + 1 } ns []).1.rels ++ newRels = _
    rw [hg]

/-- C5: a payload containing a relationship whose start or end logical id
is absent from the node list makes `write_graph` fail with a `KeyError` on
that id when the mapping lookup resolves it — after all nodes were already
created (partial application), with only the relationships preceding the
dangling one created and the dangling relationship itself never created. -/
theorem claim_write_dangling_rel (st : GraphStore) (ns : List NodeSpecL)
    (pre : List RelSpecL) (bad : RelSpecL) (post : List RelSpecL)
    (hpre : ∀ r ∈ pre, (r.rstart ∈ ns.map fun n => n.nid) ∧ (r.rend ∈ ns.map fun n => n.nid))
    (hbad : (bad.rstart ∉ ns.map fun n => n.nid) ∨ (bad.rend ∉ ns.map fun n => n.nid)) :
    ∃ k, (write_knowledge_graph st (mkPayload ns (pre ++ bad :: post))).2 =
        Except.error (PyErr.keyError k) ∧
      (k = PyVal.str bad.rstart ∨ k = PyVal.str bad.rend) ∧
      (write_knowledge_graph st (mkPayload ns (pre ++ bad :: post))).1.nodes.length =
        st.nodes.length + ns.length ∧
      (write_knowledge_graph st (mkPayload ns (pre ++ bad :: post))).1.rels.length =
        st.rels.length + pre.length := by
  have hpres2 : ∀ r ∈ pre,
      (mapFind (nodesPhaseG st.uuidCounter
        { st with uuidCounter := st.uuidCounter + 1 } ns []).2 (PyVal.str r.rstart)).isSome ∧
      (mapFind (nodesPhaseG st.uuidCounter
        { st with uuidCounter := st.uuidCounter + 1 } ns []).2 (PyVal.str r.rend)).isSome :=
    fun r hr =>
      ⟨nodesPhaseG_mapFind_present st.uuidCounter ns _ [] r.rstart (hpre r hr).1,
       nodesPhaseG_mapFind_present st.uuidCounter ns _ [] r.rend (hpre r hr).2⟩
  have hmap : ∀ (s : String) (v : Nat),
      mapFind (nodesPhaseG st.uuidCounter
        { st with uuidCounter := st.uuidCounter + 1 } ns []).2 (PyVal.str s) = some v →
      containsId (nodesPhaseG st.uuidCounter
        { st with uuidCounter := st.uuidCounter + 1 } ns []).1 v = true :=
    nodesPhaseG_mapped_present st.uuidCounter ns _ [] (fun s v hf => by cases hf)
  have hfmk : ∃ k, firstMissingKey (nodesPhaseG st.uuidCounter
      { st with uuidCounter := st.uuidCounter + 1 } ns []).2 bad = some k ∧
      (k = PyVal.str bad.rstart ∨ k = PyVal.str bad.rend) := by
    by_cases hstart : bad.rstart ∈ ns.map fun n => n.nid
    · have hend : bad.rend ∉ ns.map fun n => n.nid := by
        rcases hbad with hb | hb
        · exact absurd hstart hb
        · exact hb
      obtain ⟨sid, hs⟩ := Option.isSome_iff_exists.mp
        (nodesPhaseG_mapFind_present st.uuidCounter ns _ [] bad.rstart hstart)
      have hmse : mapFind (nodesPhaseG st.uuidCounter
          { st with uuidCounter := st.uuidCounter + 1 } ns []).2 (PyVal.str bad.rend) =
          none := by
        rw [nodesPhaseG_mapFind_absent st.uuidCounter ns _ [] bad.rend hend]
        rfl
      refine ⟨PyVal.str bad.rend, ?_, Or.inr rfl⟩
      unfold firstMissingKey
      rw [hs, hmse]
    · have hmss : mapFind (nodesPhaseG st.uuidCounter
          { st with uuidCounter := st.uuidCounter + 1 } ns []).2 (PyVal.str bad.rstart) =
          none := by
        rw [nodesPhaseG_mapFind_absent st.uuidCounter ns _ [] bad.rstart hstart]
        rfl
      refine ⟨PyVal.str bad.rstart, ?_, Or.inl rfl⟩
      unfold firstMissingKey
      rw [hmss]
  obtain ⟨k, hk, hkor⟩ := hfmk
  obtain ⟨newRels, hloop, hlen⟩ := relsLoop_fail st.uuidCounter pre bad post
    (nodesPhaseG st.uuidCounter { st with uuidCounter := st.uuidCounter + 1 } ns []).1
    (nodesPhaseG st.uuidCounter { st with uuidCounter := st.uuidCounter + 1 } ns []).2
    hpres2 hmap k hk
  have hg := nodesPhaseG_graph st.uuidCounter ns
    { st with uuidCounter := st.uuidCounter + 1 } []
  have hww : write_knowledge_graph st (mkPayload ns (pre ++ bad :: post)) =
      ({ (nodesPhaseG st.uuidCounter { st with uuidCounter := st.uuidCounter + 1 } ns []).1 with
          rels := (nodesPhaseG st.uuidCounter
            { st with uuidCounter := st.uuidCounter + 1 } ns []).1.rels ++ newRels
          nextRelId := (nodesPhaseG st.uuidCounter
            { st with uuidCounter := st.uuidCounter + 1 } ns []).1.nextRelId + pre.length
          clock := (nodesPhaseG st.uuidCounter
            { st with uuidCounter := st.uuidCounter + 1 } ns []).1.clock + pre.length
          events := (nodesPhaseG st.uuidCounter
            { st with uuidCounter := st.uuidCounter + 1 } ns []).1.events ++
            newRels.map fun x => GEvent.createRel x.id x.startId x.endId },
        Except.error (PyErr.keyError k)) := by
    rw [write_mkPayload, hloop]
  refine ⟨k, ?_, hkor, ?_, ?_⟩
  · rw [hww]
  · rw [hww]
    show ((nodesPhaseG st.uuidCounter
        { st with uuidCounter := st.uuidCounter + 1 } ns []).1.nodes).length = _
    rw [hg]
    show (st.nodes ++ phaseNodes st.uuidCounter
        { st with uuidCounter := st.uuidCounter + 1 } ns).length = _
    rw [List.length_append, phaseNodes_length]
  · rw [hww]
    show ((nodesPhaseG st.uuidCounter
        { st with uuidCounter := st.uuidCounter + 1 } ns []).1.rels ++ newRels).length = _
    rw [hg]
    show (st.rels ++ newRels).length = _
    rw [List.length_append, hlen]

/-- The end-to-end example payload nodes: a Symptom "db timeout" and an
Action "add index". -/
def exampleNodes : List NodeSpecL :=
  [{ nid := "n0", nlabel := "Symptom", nprops := [("name", PyVal.str "db timeout")] },
   { nid := "n1", nlabel := "Action", nprops := [("name", PyVal.str "add index")] }]

/-- The end-to-end example relationship: FIXES from n1 to n0. -/
def exampleRels : List RelSpecL :=
  [{ rtype := "FIXES", rstart := "n1", rend := "n0",
     rprops := [("confidence", PyVal.float "0.9")] }]

/-- Witness for C4 at the end-to-end example: both submission orders give
the same result and the write reports 2 nodes, 1 relationship, run id 0. -/
theorem claim_write_two_phase_order_witness :
    (∀ r ∈ exampleRels, (r.rstart ∈ exampleNodes.map fun n => n.nid) ∧
      (r.rend ∈ exampleNodes.map fun n => n.nid)) ∧
    write_knowledge_graph GraphStore.empty (mkPayloadRev exampleNodes exampleRels) =
      write_knowledge_graph GraphStore.empty (mkPayload exampleNodes exampleRels) ∧
    (write_knowledge_graph GraphStore.empty (mkPayload exampleNodes exampleRels)).2 =
      Except.ok (2, 1, 0) :=
  ⟨by decide,
    (claim_write_two_phase_order GraphStore.empty exampleNodes exampleRels (by decide)).1,
    (claim_write_two_phase_order GraphStore.empty exampleNodes exampleRels (by decide)).2.1⟩

/-- The dangling relationship of the C5 scenario: its start id "n9" is not
among the payload's logical node ids. -/
def danglingRel : RelSpecL :=
  { rtype := "FIXES", rstart := "n9", rend := "n0", rprops := [] }

/-- Witness for C5: writing one node plus one dangling relationship raises
`KeyError` on the unmapped id, after the node was created and with no
relationship created. -/
theorem claim_write_dangling_rel_witness :
    ("n9" ∉ exampleNodes.map fun n => n.nid) ∧
    ∃ k, (write_knowledge_graph GraphStore.empty
        (mkPayload exampleNodes ([] ++ danglingRel :: []))).2 =
        Except.error (PyErr.keyError k) ∧
      (k = PyVal.str danglingRel.rstart ∨ k = PyVal.str danglingRel.rend) ∧
      (write_knowledge_graph GraphStore.empty
        (mkPayload exampleNodes ([] ++ danglingRel :: []))).1.nodes.length =
        GraphStore.empty.nodes.length + exampleNodes.length ∧
      (write_knowledge_graph GraphStore.empty
        (mkPayload exampleNodes ([] ++ danglingRel :: []))).1.rels.length =
        GraphStore.empty.rels.length + List.length ([] : List RelSpecL) :=
  ⟨by decide,
    claim_write_dangling_rel GraphStore.empty exampleNodes [] danglingRel []
      (fun r hr => absurd hr (List.not_mem_nil r))
      (Or.inl (by decide))⟩


/-! ## Tool entry point totality (C10) -/


/-- A successful `query_existing` always returns a JSON object. -/
theorem queryExisting_ok_dict (M : EmbeddingModel V) (w : World V) (name label : String)
    (v : PyVal) (hv : (queryExisting M w name label).2 = Except.ok v) :
    ∃ fs, v = PyVal.dict fs := by
  unfold queryExisting at hv
  cases hca : w.cache with
  | unavailable =>
    rw [hca] at hv
    cases hv
  | available sc =>
    rw [hca] at hv
    cases hc : sc.check M name (some label) with
    | none =>
      simp only [hc] at hv
      exact ⟨_, (Except.ok.inj hv).symm⟩
    | some ns =>
      cases ns with
      | nil =>
        simp only [hc] at hv
        exact ⟨_, (Except.ok.inj hv).symm⟩
      | cons n rest =>
        simp only [hc] at hv
        exact ⟨_, (Except.ok.inj hv).symm⟩

/-- A successful dispatch of any operation always returns a JSON object. -/
theorem dispatch_ok_dict (M : EmbeddingModel V) (w : World V) (operation : String)
    (d : PyVal) (v : PyVal) (hv : (dispatch M w operation d).2 = Except.ok v) :
    ∃ fs, v = PyVal.dict fs := by
  unfold dispatch at hv
  split_ifs at hv
  · unfold writeGraphOp at hv
    cases h2 : (write_knowledge_graph w.graph d).2 with
    | error e =>
      simp only [h2] at hv
      cases hv
    | ok t =>
      obtain ⟨nn, nr, rid⟩ := t
      simp only [h2] at hv
      exact ⟨_, (Except.ok.inj hv).symm⟩
  · unfold queryExistingOp at hv
    cases hn : pyGet d "name" with
    | error e =>
      simp only [hn] at hv
      cases hv
    | ok nv =>
      cases hl : pyGet d "label" with
      | error e =>
        simp only [hn, hl] at hv
        cases hv
      | ok lv =>
        simp only [hn, hl] at hv
        split_ifs at hv
        · exact ⟨_, (Except.ok.inj hv).symm⟩
        · exact queryExisting_ok_dict M w (pyToText nv) (pyToText lv) v hv
  · exact ⟨_, (Except.ok.inj hv).symm⟩
  · exact ⟨_, (Except.ok.inj hv).symm⟩

/-- C10: `forward(operation, data)` is total — it always returns a JSON
object and never raises. An unrecognized operation (with parseable data)
returns an object whose "error" value names the unknown operation;
malformed JSON in `data` returns an object with an "error" key; and any
exception an underlying operation raises is converted into an object with
an "error" key carrying the exception message. -/
theorem claim_forward_total (M : EmbeddingModel V) (jsonLoads : String → Option PyVal)
    (w : World V) (operation : String) (data : String) :
    (∃ fs, (forward M jsonLoads w operation data).2 = PyVal.dict fs) ∧
    (jsonLoads data = none →
      (forward M jsonLoads w operation data).2 =
        PyVal.dict [("error", PyVal.str (errMsg PyErr.jsonDecodeError))]) ∧
    (∀ d, jsonLoads data = some d → operation ≠ "write_graph" →
      operation ≠ "query_existing" → operation ≠ "get_stats" →
      (forward M jsonLoads w operation data).2 =
        PyVal.dict [("error", PyVal.str ("Unknown operation: " ++ operation))]) ∧
    (∀ d e, jsonLoads data = some d → (dispatch M w operation d).2 = Except.error e →
      (forward M jsonLoads w operation data).2 =
        PyVal.dict [("error", PyVal.str (errMsg e))]) := by
  refine ⟨?_, ?_, ?_, ?_⟩
  · unfold forward
    cases hj : jsonLoads data with
    | none => exact ⟨_, rfl⟩
    | some d =>
      cases hd : (dispatch M w operation d).2 with
      | error e =>
        simp only [hd]
        exact ⟨_, rfl⟩
      | ok v =>
        simp only [hd]
        exact dispatch_ok_dict M w operation d v hd
  · intro hj
    unfold forward
    rw [hj]
  · intro d hj h1 h2 h3
    unfold forward
    rw [hj]
    have hd : dispatch M w operation d =
        (w, Except.ok (PyVal.dict
          [("error", PyVal.str ("Unknown operation: " ++ operation))])) := by
      unfold dispatch
      rw [if_neg h1, if_neg h2, if_neg h3]
    simp only [hd]
  · intro d e hj hd
    unfold forward
    rw [hj]
    simp only [hd]

/-- The concrete world of the C10 scenario. -/
def c10World : World String :=
  { graph := GraphStore.empty, cache := CacheHandle.available (get_semantic_cache String) }

/-- A parser that fails on the string "bad" and parses anything else as an
empty JSON object. -/
def c10Loads : String → Option PyVal :=
  fun s => if s = "bad" then none else some (PyVal.dict [])

/-- Witness for C10: malformed data yields a JSON error object, and an
unknown operation yields a JSON object naming it. -/
theorem claim_forward_total_witness :
    (c10Loads "bad" = none ∧
      (forward discreteModel c10Loads c10World "get_stats" "bad").2 =
        PyVal.dict [("error", PyVal.str (errMsg PyErr.jsonDecodeError))]) ∧
    (c10Loads "payload" = some (PyVal.dict []) ∧
      (forward discreteModel c10Loads c10World "frobnicate" "payload").2 =
        PyVal.dict [("error", PyVal.str ("Unknown operation: " ++ "frobnicate"))]) :=
  ⟨⟨rfl, (claim_forward_total discreteModel c10Loads c10World "get_stats" "bad").2.1 rfl⟩,
   ⟨rfl, (claim_forward_total discreteModel c10Loads c10World "frobnicate" "payload").2.2.1
      (PyVal.dict []) rfl (by decide) (by decide) (by decide)⟩⟩


end SyeAgent
